import Mathlib

/-!
Verification development for the hypnotoad2 core: a shallow embedding of
`dct_interpolation.py` (spectral interpolation), `equilibrium.py` (extremum,
saddle-point and root finding) and `torpex.py` (TORPEX equilibrium
construction), together with theorems about the embedded code.

Machine floats are idealised as real numbers (or, for the purely
order/sign-driven root-bracketing logic, as elements of an arbitrary linear
ordered field so that concrete runs can be evaluated over `ℚ`).  External
library routines (`scipy.optimize.minimize_scalar`, `scipy.optimize.brentq`)
are modelled as explicit function parameters returning `Option` values
(`none` = the routine reported failure).  `while` loops are modelled with an
explicit fuel parameter; exhausting the fuel is reported by the artificial
error `fuelExhausted`, which corresponds to the loop in the Python source
never terminating.  Python exceptions are modelled with `Except`.
-/

open Finset

namespace Hypnotoad

/-- Modelled from the spec: `Point2D` from the missing `mesh` module — a pair
`(R, Z)` of real coordinates forming a vector space under addition,
subtraction and scalar multiplication. -/
structure Point2D where
  R : ℝ
  Z : ℝ

noncomputable instance : Add Point2D := ⟨fun p q => ⟨p.R + q.R, p.Z + q.Z⟩⟩

noncomputable instance : Sub Point2D := ⟨fun p q => ⟨p.R - q.R, p.Z - q.Z⟩⟩

noncomputable instance : HMul ℝ Point2D Point2D := ⟨fun s p => ⟨s * p.R, s * p.Z⟩⟩

noncomputable instance : HDiv Point2D ℝ Point2D := ⟨fun p s => ⟨p.R / s, p.Z / s⟩⟩

/-- Modelled from the spec: `calc_distance` from the missing `mesh` module —
the Euclidean distance between two points. -/
noncomputable def calc_distance (p q : Point2D) : ℝ :=
  Real.sqrt ((q.R - p.R) ^ 2 + (q.Z - p.Z) ^ 2)

/-- Python exceptions raised by the embedded code.  The constructor
`fuelExhausted` is not an exception of the source: it marks that the fuel of
an embedded `while` loop ran out, i.e. that the source loop was still
running at that depth. -/
inductive EqErr where
  /-- `ValueError('findMinimum_1d failed')` -/
  | findMinimumFailed
  /-- `ValueError('findMaximum_1d failed')` -/
  | findMaximumFailed
  /-- `ValueError("Neither minimum nor maximum found in interval")` -/
  | neitherExtremumFound
  /-- `AssertionError` from the edge-classification asserts in
  `findSaddlePoint` -/
  | saddleAssertFailed
  /-- fuel of an embedded `while` loop ran out (modelling artefact) -/
  | fuelExhausted
  deriving DecidableEq

/-- The kind of 1-d minimizer used by `equilibrium.py`:
`scipy.optimize.minimize_scalar(objective, method='bounded', bounds=(0,1),
options={'xatol': atol})`.  It receives the objective and the tolerance and
returns the location of the reported minimum, or `none` when
`result.success` is false. -/
def MinimizeScalar : Type := (ℝ → ℝ) → ℝ → Option ℝ

/-- `Equilibrium.findMinimum_1d` from `equilibrium.py`: minimize
`psi(coords(s))` for `coords(s) = pos1 + s*(pos2-pos1)` over `s ∈ [0,1]`,
returning `coords(result.x)`; raises `ValueError` when the minimizer
fails. -/
noncomputable def findMinimum_1d (ms : MinimizeScalar) (psi : ℝ → ℝ → ℝ)
    (pos1 pos2 : Point2D) (atol : ℝ) : Except EqErr Point2D :=
  let coords : ℝ → Point2D := fun s => pos1 + s * (pos2 - pos1)
  match ms (fun s => psi (coords s).R (coords s).Z) atol with
  | some x => .ok (coords x)
  | none => .error .findMinimumFailed

/-- `Equilibrium.findMaximum_1d` from `equilibrium.py`: same as
`findMinimum_1d` but minimizing `-psi` to find a maximum. -/
noncomputable def findMaximum_1d (ms : MinimizeScalar) (psi : ℝ → ℝ → ℝ)
    (pos1 pos2 : Point2D) (atol : ℝ) : Except EqErr Point2D :=
  let coords : ℝ → Point2D := fun s => pos1 + s * (pos2 - pos1)
  match ms (fun s => -psi (coords s).R (coords s).Z) atol with
  | some x => .ok (coords x)
  | none => .error .findMaximumFailed

/-- `Equilibrium.findExtremum_1d` from `equilibrium.py`: find an interior
minimum, else an interior maximum, of `psi` on the segment `pos1`–`pos2`;
"interior" means farther than `10*rtol*calc_distance(pos1,pos2)` from both
endpoints.  Returns the position together with `isMinimum`. -/
noncomputable def findExtremum_1d (ms : MinimizeScalar) (psi : ℝ → ℝ → ℝ)
    (pos1 pos2 : Point2D) (rtol atol : ℝ) : Except EqErr (Point2D × Bool) :=
  let smallDistance := 10 * rtol * calc_distance pos1 pos2
  match findMinimum_1d ms psi pos1 pos2 atol with
  | .error e => .error e
  | .ok minpos =>
    if calc_distance pos1 minpos > smallDistance ∧
        calc_distance pos2 minpos > smallDistance then
      .ok (minpos, true)
    else
      match findMaximum_1d ms psi pos1 pos2 atol with
      | .error e => .error e
      | .ok maxpos =>
        if calc_distance pos1 maxpos > smallDistance ∧
            calc_distance pos2 maxpos > smallDistance then
          .ok (maxpos, false)
        else
          .error .neitherExtremumFound

/-- The mutable state of the fixed-point loop in
`Equilibrium.findSaddlePoint`. -/
structure SaddleState where
  posBottom : Point2D
  posTop : Point2D
  posLeft : Point2D
  posRight : Point2D
  extremumVert : Point2D
  extremumHoriz : Point2D

/-- One iteration of the `while` loop of `Equilibrium.findSaddlePoint`
(lines 104–113 of `equilibrium.py`): run the vertical search between the
bottom/top points with tolerance `0.5*atol`, clamp the left/right points'
`Z`, run the horizontal search between them with tolerance `0.5*atol`, and
clamp the bottom/top points' `R`.  The search functions are the
`vertSearch`/`horizSearch` bound before the loop. -/
noncomputable def saddleStep (vert horiz : Point2D → Point2D → ℝ → Except EqErr Point2D)
    (atol : ℝ) (s : SaddleState) : Except EqErr SaddleState :=
  match vert s.posBottom s.posTop (0.5 * atol) with
  | .error e => .error e
  | .ok eV =>
    let pL := { s.posLeft with Z := eV.Z }
    let pR := { s.posRight with Z := eV.Z }
    match horiz pL pR (0.5 * atol) with
    | .error e => .error e
    | .ok eH =>
      .ok
        { posBottom := { s.posBottom with R := eH.R }
          posTop := { s.posTop with R := eH.R }
          posLeft := pL
          posRight := pR
          extremumVert := eV
          extremumHoriz := eH }

/-- The `while` loop of `Equilibrium.findSaddlePoint`, with fuel.  Besides
the final state it returns the list of the tolerance values that were passed
to the 1-d sub-searches, one entry per executed iteration (within one
iteration both sub-searches receive the same tolerance). -/
noncomputable def saddleLoopAux
    (vert horiz : Point2D → Point2D → ℝ → Except EqErr Point2D) (atol : ℝ) :
    ℕ → SaddleState → List ℝ × Except EqErr SaddleState
  | 0, _ => ([], .error .fuelExhausted)
  | fuel + 1, s =>
    if calc_distance s.extremumVert s.extremumHoriz > atol then
      match saddleStep vert horiz atol s with
      | .error e => ([0.5 * atol], .error e)
      | .ok s' =>
        let rest := saddleLoopAux vert horiz atol fuel s'
        (0.5 * atol :: rest.1, rest.2)
    else
      ([], .ok s)

/-- The `while` loop of `Equilibrium.findSaddlePoint`: final state only. -/
noncomputable def saddleLoop
    (vert horiz : Point2D → Point2D → ℝ → Except EqErr Point2D) (atol : ℝ)
    (fuel : ℕ) (s : SaddleState) : Except EqErr SaddleState :=
  (saddleLoopAux vert horiz atol fuel s).2

/-- `Equilibrium.findSaddlePoint` from `equilibrium.py`: locate the extremum
of `psi` along each edge of the box (with `findExtremum_1d`'s default
tolerances `rtol=1e-5`, `atol=1e-14`), check the saddle signature with three
asserts, pick the vertical/horizontal search directions, and iterate until
the vertical and horizontal extremum estimates are within `atol`; the result
is their midpoint. -/
noncomputable def findSaddlePoint (ms : MinimizeScalar) (psi : ℝ → ℝ → ℝ)
    (Rmin Rmax Zmin Zmax atol : ℝ) (fuel : ℕ) : Except EqErr Point2D := do
  let (posTop, minTop) ←
    findExtremum_1d ms psi ⟨Rmin, Zmax⟩ ⟨Rmax, Zmax⟩ 1e-5 1e-14
  let (posBottom, minBottom) ←
    findExtremum_1d ms psi ⟨Rmin, Zmin⟩ ⟨Rmax, Zmin⟩ 1e-5 1e-14
  let (posLeft, minLeft) ←
    findExtremum_1d ms psi ⟨Rmin, Zmin⟩ ⟨Rmin, Zmax⟩ 1e-5 1e-14
  let (posRight, minRight) ←
    findExtremum_1d ms psi ⟨Rmax, Zmin⟩ ⟨Rmax, Zmax⟩ 1e-5 1e-14
  if minTop ≠ minBottom then .error .saddleAssertFailed else
  if minLeft ≠ minRight then .error .saddleAssertFailed else
  if minTop = minLeft then .error .saddleAssertFailed else
  let vert := if minTop then findMaximum_1d ms psi else findMinimum_1d ms psi
  let horiz := if minLeft then findMaximum_1d ms psi else findMinimum_1d ms psi
  let s0 : SaddleState :=
    { posBottom := posBottom, posTop := posTop
      posLeft := posLeft, posRight := posRight
      extremumVert := ⟨Rmin, Zmin⟩, extremumHoriz := ⟨Rmax, Zmax⟩ }
  match saddleLoop vert horiz atol fuel s0 with
  | .error e => .error e
  | .ok s => .ok ((s.extremumVert + s.extremumHoriz) / (2 : ℝ))

/-- The `while` loop of `findSaddlePoint` runs forever (every finite fuel is
exhausted) from the given state with the given search functions. -/
noncomputable def saddleLoopDiverges
    (vert horiz : Point2D → Point2D → ℝ → Except EqErr Point2D) (atol : ℝ)
    (s : SaddleState) : Prop :=
  ∀ fuel : ℕ, saddleLoop vert horiz atol fuel s = .error .fuelExhausted

/-! ## `Equilibrium.findRoots_1d`

The bracketing loop of `findRoots_1d` is driven purely by arithmetic, order
comparisons and signs, so it is embedded over an arbitrary linear ordered
field `α`; theorems instantiate it at `ℝ` or (for concrete evaluation)
at `ℚ`. -/

/-- Python exceptions raised by the embedded `findRoots_1d`. -/
inductive RootErr where
  /-- `NotImplementedError` — an interval point landed exactly on a root -/
  | luckyRoot
  /-- `ValueError('Could not find', n, 'roots when checking', maxintervals,
  'intervals')` -/
  | tooManyIntervals
  /-- `ValueError('Root finding failed in {...}')` — `brentq` did not
  converge on the bracketing interval starting at the given sample index -/
  | bracketFailed (i : ℕ)
  /-- `TypeError` raised by `warnings.warn('Warning: found', foundRoots,
  'roots but expected only', n)`: the second positional argument of
  `warnings.warn` is the warning category and must be a `Warning` subclass,
  but the `int` value `foundRoots` is passed there -/
  | warnCategoryTypeError
  /-- fuel of the embedded `while` loop ran out (modelling artefact) -/
  | fuelExhausted
  deriving DecidableEq

variable {α : Type} [LinearOrderedField α]

/-- `numpy.linspace(xmin, xmax, n+1)`: point `i` of the uniform sampling of
`[xmin, xmax]` into `n` intervals. -/
def linspace (xmin xmax : α) (n : ℕ) (i : ℕ) : α :=
  xmin + (xmax - xmin) * i / n

/-- `numpy.sign` (on nonzero inputs `±1`, on zero `0`). -/
def npSign (x : α) : ℤ :=
  if x < 0 then -1 else if x = 0 then 0 else 1

/-- The sample values `interval_f = f(interval_points)` at resolution
`n_intervals`, as a function of the sample index `0 ≤ i ≤ n_intervals`. -/
def sampleF (f : α → α) (xmin xmax : α) (nIntervals : ℕ) (i : ℕ) : α :=
  f (linspace xmin xmax nIntervals i)

/-- Whether some sample at this resolution is exactly zero
(`numpy.where(interval_f == 0.)` nonempty). -/
def hasLuckyRoot [DecidableEq α] (f : α → α) (xmin xmax : α)
    (nIntervals : ℕ) : Bool :=
  (List.range (nIntervals + 1)).any fun i =>
    decide (sampleF f xmin xmax nIntervals i = 0)

/-- The indices of the intervals with a sign change, in increasing order
(`numpy.where(sign(interval_f[:-1]) != sign(interval_f[1:]))[0]`). -/
def intervalsWithRoots (f : α → α) (xmin xmax : α) (nIntervals : ℕ) :
    List ℕ :=
  (List.range nIntervals).filter fun i =>
    decide (npSign (sampleF f xmin xmax nIntervals i) ≠
      npSign (sampleF f xmin xmax nIntervals (i + 1)))

/-- The resolution-doubling `while` loop of `findRoots_1d` (lines 129–143 of
`equilibrium.py`), with fuel: sample, fail on an exact-zero sample, stop
once at least `n` sign changes are bracketed, else double `n_intervals`,
failing once it exceeds `maxintervals`.  Returns the accepted resolution. -/
def rootSampleLoop [DecidableEq α] (f : α → α) (n : ℕ) (xmin xmax : α)
    (maxintervals : ℕ) : ℕ → ℕ → Except RootErr ℕ
  | 0, _ => .error .fuelExhausted
  | fuel + 1, nIntervals =>
    if hasLuckyRoot f xmin xmax nIntervals then
      .error .luckyRoot
    else if n ≤ (intervalsWithRoots f xmin xmax nIntervals).length then
      .ok nIntervals
    else if maxintervals < 2 * nIntervals then
      .error .tooManyIntervals
    else
      rootSampleLoop f n xmin xmax maxintervals fuel (2 * nIntervals)

/-- The kind of bracketed root finder used by `findRoots_1d`:
`scipy.optimize.brentq(f, a, b, xtol=atol, full_output=True)`, modelled as a
function of `(f, a, b, atol)` returning the root, or `none` when
`info.converged` is false. -/
def Brentq (α : Type) : Type := (α → α) → α → α → α → Option α

/-- The root-refinement phase of `findRoots_1d` (lines 146–154): run the
bracketed solver on every sign-change interval, in increasing index order,
failing on the first interval whose sub-search does not converge. -/
def refineRoots (bq : Brentq α) (f : α → α) (xmin xmax atol : α)
    (nIntervals : ℕ) : List ℕ → Except RootErr (List α)
  | [] => .ok []
  | i :: rest =>
    match bq f (linspace xmin xmax nIntervals i)
        (linspace xmin xmax nIntervals (i + 1)) atol with
    | none => .error (.bracketFailed i)
    | some r =>
      match refineRoots bq f xmin xmax atol nIntervals rest with
      | .error e => .error e
      | .ok rs => .ok (r :: rs)

/-- `Equilibrium.findRoots_1d` from `equilibrium.py`: bracket at least `n`
sign changes by repeated resolution doubling, refine every bracketed root
with the bounded solver, and finally — when more roots than requested were
found — execute `warnings.warn('Warning: found', foundRoots, 'roots but
expected only', n)`, whose invalid category argument raises `TypeError`. -/
def findRoots_1d [DecidableEq α] (bq : Brentq α) (f : α → α) (n : ℕ)
    (xmin xmax atol : α) (maxintervals fuel : ℕ) : Except RootErr (List α) :=
  match rootSampleLoop f n xmin xmax maxintervals fuel n with
  | .error e => .error e
  | .ok nIntervals =>
    match refineRoots bq f xmin xmax atol nIntervals
        (intervalsWithRoots f xmin xmax nIntervals) with
    | .error e => .error e
    | .ok roots =>
      if n < roots.length then .error .warnCategoryTypeError
      else .ok roots

/-! ## `TORPEXMagneticField.__init__` (`torpex.py`)

Only the X-point block (lines 46–52) is embedded: the `try` block sets
`x_points` and `psi_sep` from `findSaddlePoint`, and the bare `except`
catches any exception, issues a warning and continues with those attributes
unset. -/

/-- Result of the X-point block of `TORPEXMagneticField.__init__`:
the `x_points` list (empty when the attribute was never assigned) and
whether the failure warning was issued. -/
structure TorpexInitResult where
  x_points : List Point2D
  warned : Bool

/-- The X-point block of `TORPEXMagneticField.__init__` as a function of the
outcome of the `findSaddlePoint` call: on success record the X-point, on any
exception warn (`'Warning: failed to find X-point. ...'`) and continue.  The
block never re-raises. -/
def torpexInitXPoint (saddle : Except EqErr Point2D) : TorpexInitResult :=
  match saddle with
  | .ok p => { x_points := [p], warned := false }
  | .error _ => { x_points := [], warned := true }

/-! ## `DCT_2D` (`dct_interpolation.py`) -/

/-- `scipy.fftpack.dct` with the default type II:
`y[k] = 2 * sum[n=0..N-1] x[n] * cos(pi*k*(2n+1)/(2N))`. -/
noncomputable def dct1d (N : ℕ) (x : Fin N → ℝ) (k : Fin N) : ℝ :=
  2 * ∑ m : Fin N, x m * Real.cos (Real.pi * k * (2 * m + 1) / (2 * N))

/-- `dct(dct(psiRZ, axis=0), axis=1)`: the 1-d transform applied first along
the `Z` index and then along the `R` index. -/
noncomputable def dct2dRaw (nR nZ : ℕ) (psiRZ : Fin nZ → Fin nR → ℝ) :
    Fin nZ → Fin nR → ℝ :=
  fun k m => dct1d nR (fun r => dct1d nZ (fun z => psiRZ z r) k) m

/-- The stored coefficient array `self.psiDCT` of `DCT_2D.__init__`: the raw
2-d transform divided by `nR*nZ`, with the zero-frequency row and the
zero-frequency column each halved. -/
noncomputable def dct2dCoeffs (nR nZ : ℕ) (psiRZ : Fin nZ → Fin nR → ℝ) :
    Fin nZ → Fin nR → ℝ :=
  fun k m =>
    let v := dct2dRaw nR nZ psiRZ k m / (nR * nZ)
    let v1 := if (k : ℕ) = 0 then v / 2 else v
    if (m : ℕ) = 0 then v1 / 2 else v1

/-- The angular coefficients `coef_R`/`coef_Z`: `pi * k / N`. -/
noncomputable def coefAng (N : ℕ) (k : Fin N) : ℝ :=
  Real.pi * k / N

/-- The data of a constructed `DCT_2D` object that its evaluation methods
read. -/
structure DCT_2D (nR nZ : ℕ) where
  Rmin : ℝ
  Rsize : ℝ
  Zmin : ℝ
  Zsize : ℝ
  psiDCT : Fin nZ → Fin nR → ℝ

/-- `DCT_2D.__init__` past its validating asserts: record the bounding box
from the first and last array entries and store the normalized transform. -/
noncomputable def DCT_2D.build (nR nZ : ℕ) (hR : 0 < nR) (hZ : 0 < nZ)
    (Rarray : Fin nR → ℝ) (Zarray : Fin nZ → ℝ)
    (psiRZ : Fin nZ → Fin nR → ℝ) : DCT_2D nR nZ :=
  { Rmin := Rarray ⟨0, hR⟩
    Rsize := Rarray ⟨nR - 1, Nat.sub_lt hR one_pos⟩ - Rarray ⟨0, hR⟩
    Zmin := Zarray ⟨0, hZ⟩
    Zsize := Zarray ⟨nZ - 1, Nat.sub_lt hZ one_pos⟩ - Zarray ⟨0, hZ⟩
    psiDCT := dct2dCoeffs nR nZ psiRZ }

/-- `DCT_2D.__call__` at a single query point: map to continuous index
space, then sum `psiDCT * cos(coef_R*(iR+0.5)) * cos(coef_Z*(iZ+0.5))` over
all frequency pairs. -/
noncomputable def DCT_2D.call {nR nZ : ℕ} (d : DCT_2D nR nZ) (R Z : ℝ) : ℝ :=
  let iR := (R - d.Rmin) / d.Rsize * ((nR : ℝ) - 1)
  let iZ := (Z - d.Zmin) / d.Zsize * ((nZ : ℝ) - 1)
  ∑ j : Fin nZ, ∑ k : Fin nR,
    d.psiDCT j k * Real.cos (coefAng nR k * (iR + 0.5)) *
      Real.cos (coefAng nZ j * (iZ + 0.5))

/-! ### The validating asserts of `DCT_2D.__init__`

The two grid-uniformity asserts and the two shape asserts run before any
transform is taken; they are embedded over `ℚ` (exact arithmetic standing in
for floats) so that concrete runs are decidable.  Coordinate arrays are
lists; the sample grid enters only through its shape `(shape0, shape1) =
psiRZ.shape`. -/

/-- The spec error taxonomy for construction failures (the source raises
bare `AssertionError`s; which assert fired identifies the variant). -/
inductive ValidationError where
  | nonuniformR
  | nonuniformZ
  | shapeMismatch
  deriving DecidableEq

/-- The grid-uniformity assert for one coordinate array:
`all(abs(arr - linspace(arr[0], arr[-1], n)) < 1.e-13)`. -/
def uniformOK (arr : List ℚ) : Bool :=
  (List.range arr.length).all fun i =>
    decide (|arr.getD i 0 - (arr.getD 0 0 +
      (arr.getD (arr.length - 1) 0 - arr.getD 0 0) * i /
        (arr.length - 1))| < 1 / 10 ^ 13)

/-- The assert sequence of `DCT_2D.__init__` (lines 24–38 of
`dct_interpolation.py`): uniform spacing in `R`, uniform spacing in `Z`,
then `nR == psiRZ.shape[1]` and `nZ == psiRZ.shape[0]`. -/
def DCT_2D.initCheck (Rarray Zarray : List ℚ) (shape0 shape1 : ℕ) :
    Except ValidationError Unit :=
  if ¬ uniformOK Rarray then .error .nonuniformR
  else if ¬ uniformOK Zarray then .error .nonuniformZ
  else if Rarray.length ≠ shape1 then .error .shapeMismatch
  else if Zarray.length ≠ shape0 then .error .shapeMismatch
  else .ok ()

/-! ## Contours

The contour class lives in the `mesh` module, which is not among the
available sources; it is modelled from the spec.  A contour with `n` points
is an indexed family `pts : ℕ → Point2D` (indices `0 … n-1` meaningful). -/

/-- Modelled from the spec: the `distance` array of a contour from the
missing `mesh` module — cumulative Euclidean arc length,
`distance[0] = 0` and `distance[i] = distance[i-1] + |P[i]-P[i-1]|`. -/
noncomputable def distAt (pts : ℕ → Point2D) (i : ℕ) : ℝ :=
  ∑ k ∈ Finset.range i, calc_distance (pts k) (pts (k + 1))

/-- Modelled from the spec: the point order produced by `reverse()` of the
missing `mesh` module on a contour of `n` points — point `i` of the
reversed contour is point `n-1-i` of the original. -/
def revPts (n : ℕ) (pts : ℕ → Point2D) : ℕ → Point2D :=
  fun i => pts (n - 1 - i)

/-! ## Concrete instantiation data used by counterexamples and witnesses -/

/-- Objective-driven minimizer used in concrete runs: probe the objective at
`1/2` and at `0` and report `1/2` or `1` accordingly. -/
noncomputable def msW : MinimizeScalar :=
  fun g _ => if g (1/2) ≤ g 0 then some (1/2) else some 1

/-- The model saddle field `psi(R,Z) = R^2 - Z^2`. -/
noncomputable def psiW : ℝ → ℝ → ℝ := fun R Z => R ^ 2 - Z ^ 2

/-- Minimizer for the `findExtremum_1d` threshold counterexample: probe the
objective at `1/20` and at `1` and return the better of the two. -/
noncomputable def msEx : MinimizeScalar :=
  fun g _ => if g (1/20) ≤ g 1 then some (1/20) else some 1

/-- Field whose restriction to the segment `(0,0)–(1,0)` is `(s - 1/20)^2`:
its minimum on the segment is close to, but not at, the left endpoint. -/
noncomputable def psiEx : ℝ → ℝ → ℝ := fun R _ => (R - 1/20) ^ 2

/-- Vertical search of a concrete two-iteration saddle run: halve the
bottom point's `R`. -/
noncomputable def vsC : Point2D → Point2D → ℝ → Except EqErr Point2D :=
  fun pB _ _ => .ok ⟨pB.R / 2, 0⟩

/-- Horizontal search of the concrete two-iteration saddle run: constant
origin. -/
noncomputable def hsC : Point2D → Point2D → ℝ → Except EqErr Point2D :=
  fun _ _ _ => .ok ⟨0, 0⟩

/-- Start state of the concrete two-iteration saddle run. -/
noncomputable def sC : SaddleState :=
  ⟨⟨8, 0⟩, ⟨8, 0⟩, ⟨0, 0⟩, ⟨0, 0⟩, ⟨100, 0⟩, ⟨0, 0⟩⟩

/-- Vertical search of the divergent saddle run: constant origin. -/
noncomputable def vsD : Point2D → Point2D → ℝ → Except EqErr Point2D :=
  fun _ _ _ => .ok ⟨0, 0⟩

/-- Horizontal search of the divergent saddle run: constant `(10, 0)`. -/
noncomputable def hsD : Point2D → Point2D → ℝ → Except EqErr Point2D :=
  fun _ _ _ => .ok ⟨10, 0⟩

/-- Start state of the divergent saddle run. -/
noncomputable def sD : SaddleState :=
  ⟨⟨0, 0⟩, ⟨0, 0⟩, ⟨0, 0⟩, ⟨0, 0⟩, ⟨0, 0⟩, ⟨10, 0⟩⟩

/-- Quartic with roots `1/2, 3/2, 5/2, 7/2`: on `[0, 4]` its coarse
3-point sampling has no sign change while the 5-point sampling has four. -/
def fW : ℚ → ℚ := fun x => (x - 1/2) * (x - 3/2) * (x - 5/2) * (x - 7/2)

/-- Always-converging model bracketed solver: interval midpoint. -/
def bqMid : Brentq ℚ := fun _ a b _ => some ((a + b) / 2)

/-- Concrete contour along the `R` axis at integer positions. -/
noncomputable def ptsC : ℕ → Point2D := fun i => ⟨i, 0⟩

/-- The final state of the concrete two-iteration saddle run. -/
noncomputable def sC2 : SaddleState :=
  ⟨⟨0, 0⟩, ⟨0, 0⟩, ⟨0, 0⟩, ⟨0, 0⟩, ⟨0, 0⟩, ⟨0, 0⟩⟩

/-- Membership in the closed segment from `p1` to `p2`: the point is
`pos1 + s*(pos2-pos1)` for some `s ∈ [0, 1]` — the range of the `coords`
map of the 1-d searches over the bounds `(0, 1)` given to
`minimize_scalar`. -/
def onSegment (p1 p2 q : Point2D) : Prop :=
  ∃ s : ℝ, 0 ≤ s ∧ s ≤ 1 ∧ q = p1 + s * (p2 - p1)

/-- Membership in the closed search box `[Rmin,Rmax] × [Zmin,Zmax]`. -/
def inBox (Rmin Rmax Zmin Zmax : ℝ) (p : Point2D) : Prop :=
  Rmin ≤ p.R ∧ p.R ≤ Rmax ∧ Zmin ≤ p.Z ∧ p.Z ≤ Zmax

/-- All six points of a saddle-loop state lie in the box. -/
def stateInBox (Rmin Rmax Zmin Zmax : ℝ) (s : SaddleState) : Prop :=
  inBox Rmin Rmax Zmin Zmax s.posBottom ∧
  inBox Rmin Rmax Zmin Zmax s.posTop ∧
  inBox Rmin Rmax Zmin Zmax s.posLeft ∧
  inBox Rmin Rmax Zmin Zmax s.posRight ∧
  inBox Rmin Rmax Zmin Zmax s.extremumVert ∧
  inBox Rmin Rmax Zmin Zmax s.extremumHoriz

/-! # Theorems -/

@[simp] lemma Point2D.add_def (p q : Point2D) :
    p + q = ⟨p.R + q.R, p.Z + q.Z⟩ := rfl

@[simp] lemma Point2D.sub_def (p q : Point2D) :
    p - q = ⟨p.R - q.R, p.Z - q.Z⟩ := rfl

@[simp] lemma Point2D.smul_def (s : ℝ) (p : Point2D) :
    s * p = ⟨s * p.R, s * p.Z⟩ := rfl

@[simp] lemma Point2D.div_def (p : Point2D) (s : ℝ) :
    p / s = ⟨p.R / s, p.Z / s⟩ := rfl

lemma calc_distance_comm (p q : Point2D) :
    calc_distance p q = calc_distance q p := by
  unfold calc_distance
  ring_nf

lemma calc_distance_nonneg (p q : Point2D) : 0 ≤ calc_distance p q :=
  Real.sqrt_nonneg _

lemma calc_distance_horiz (a b z : ℝ) :
    calc_distance ⟨a, z⟩ ⟨b, z⟩ = |b - a| := by
  unfold calc_distance
  simp [Real.sqrt_sq_eq_abs]

lemma calc_distance_vert (r z1 z2 : ℝ) :
    calc_distance ⟨r, z1⟩ ⟨r, z2⟩ = |z2 - z1| := by
  unfold calc_distance
  simp [Real.sqrt_sq_eq_abs]

/-! ## C5: validation in `DCT_2D.__init__` -/

lemma uniformOK_eq_false (arr : List ℚ)
    (h : ∃ i < arr.length, 1 / 10 ^ 13 ≤ |arr.getD i 0 - (arr.getD 0 0 +
      (arr.getD (arr.length - 1) 0 - arr.getD 0 0) * i /
        (arr.length - 1))|) :
    uniformOK arr = false := by
  obtain ⟨i, hi, hdev⟩ := h
  rw [Bool.eq_false_iff]
  intro hall
  rw [uniformOK, List.all_eq_true] at hall
  have := hall i (List.mem_range.mpr hi)
  rw [decide_eq_true_eq] at this
  linarith

/-- **C5.** Construction of the spectral field fails with the validation
error naming the offending axis whenever a coordinate array deviates from
the linear fit by more than `1e-13`; it fails with a validation error
whenever the sample grid's shape differs from `(nZ, nR)`; and when both the
uniformity asserts and the shape asserts pass, construction succeeds. -/
theorem dct2d_init_validation (Rarray Zarray : List ℚ) (shape0 shape1 : ℕ) :
    ((∃ i < Rarray.length, 1 / 10 ^ 13 < |Rarray.getD i 0 - (Rarray.getD 0 0 +
        (Rarray.getD (Rarray.length - 1) 0 - Rarray.getD 0 0) * i /
          (Rarray.length - 1))|) →
      DCT_2D.initCheck Rarray Zarray shape0 shape1 = .error .nonuniformR) ∧
    (uniformOK Rarray = true →
      (∃ i < Zarray.length, 1 / 10 ^ 13 < |Zarray.getD i 0 - (Zarray.getD 0 0 +
        (Zarray.getD (Zarray.length - 1) 0 - Zarray.getD 0 0) * i /
          (Zarray.length - 1))|) →
      DCT_2D.initCheck Rarray Zarray shape0 shape1 = .error .nonuniformZ) ∧
    ((Rarray.length ≠ shape1 ∨ Zarray.length ≠ shape0) →
      ∃ e, DCT_2D.initCheck Rarray Zarray shape0 shape1 = .error e) ∧
    (uniformOK Rarray = true → uniformOK Zarray = true →
      Rarray.length = shape1 → Zarray.length = shape0 →
      DCT_2D.initCheck Rarray Zarray shape0 shape1 = .ok ()) := by
  refine ⟨fun h => ?_, fun hR h => ?_, fun h => ?_, fun hR hZ h1 h0 => ?_⟩
  · have hfalse : uniformOK Rarray = false :=
      uniformOK_eq_false _ (by obtain ⟨i, hi, hd⟩ := h; exact ⟨i, hi, le_of_lt hd⟩)
    simp [DCT_2D.initCheck, hfalse]
  · have hfalse : uniformOK Zarray = false :=
      uniformOK_eq_false _ (by obtain ⟨i, hi, hd⟩ := h; exact ⟨i, hi, le_of_lt hd⟩)
    simp [DCT_2D.initCheck, hR, hfalse]
  · rcases hu : uniformOK Rarray with _ | _
    · exact ⟨.nonuniformR, by simp [DCT_2D.initCheck, hu]⟩
    · rcases hz : uniformOK Zarray with _ | _
      · exact ⟨.nonuniformZ, by simp [DCT_2D.initCheck, hu, hz]⟩
      · rcases h with hne | hne
        · exact ⟨.shapeMismatch, by simp [DCT_2D.initCheck, hu, hz, hne]⟩
        · by_cases hr1 : Rarray.length = shape1
          · exact ⟨.shapeMismatch, by simp [DCT_2D.initCheck, hu, hz, hr1, hne]⟩
          · exact ⟨.shapeMismatch, by simp [DCT_2D.initCheck, hu, hz, hr1]⟩
  · simp [DCT_2D.initCheck, hR, hZ, h1, h0]

/-- Witness for C5: the array `[0, 1, 3]` deviates from its linear fit by
`1/2` at index `1`, so construction fails naming the `R` axis; the uniform
data `[0, 1, 2]`, `[0, 1]` with shape `(2, 3)` passes. -/
theorem dct2d_init_validation_witness :
    DCT_2D.initCheck [0, 1, 3] [0, 1] 2 3 = .error .nonuniformR ∧
    DCT_2D.initCheck [0, 1, 2] [0, 1] 2 3 = .ok () := by
  constructor
  · exact (dct2d_init_validation [0, 1, 3] [0, 1] 2 3).1
      ⟨1, by norm_num, by norm_num [List.getD, lt_abs]⟩
  · exact (dct2d_init_validation [0, 1, 2] [0, 1] 2 3).2.2.2
      (by norm_num [uniformOK, List.range_succ, List.getD])
      (by norm_num [uniformOK, List.range_succ, List.getD])
      (by norm_num) (by norm_num)

/-! ## C9: error propagation -/

/-- A minimizer that always reports failure. -/
noncomputable def msNone : MinimizeScalar := fun _ _ => none

/-- **C9 counterexample.**  A fatal error raised by `findSaddlePoint` during
`TORPEXMagneticField.__init__` does *not* propagate to the caller: the bare
`except` of `torpex.py` swallows it and construction completes normally,
merely warning. -/
theorem torpex_catches_error_cex :
    torpexInitXPoint (.error .neitherExtremumFound) =
      { x_points := [], warned := true } := rfl

/-- **C9 (amended).**  Fatal errors propagate uncaught through the analyzer
routines themselves — a failed minimizer aborts `findExtremum_1d`, a failed
top-edge search aborts `findSaddlePoint`, and a failed bracketing phase
aborts `findRoots_1d` — but `TORPEXMagneticField.__init__` catches every
error of its `findSaddlePoint` call with a bare `except` and continues after
a non-fatal warning, so equilibrium construction does not abort there. -/
theorem error_propagation_policy :
    (∀ e : EqErr, torpexInitXPoint (.error e) =
      { x_points := [], warned := true }) ∧
    (∀ (ms : MinimizeScalar) (psi : ℝ → ℝ → ℝ) (p1 p2 : Point2D)
      (rtol atol : ℝ) (e : EqErr),
      findMinimum_1d ms psi p1 p2 atol = .error e →
      findExtremum_1d ms psi p1 p2 rtol atol = .error e) ∧
    (∀ (ms : MinimizeScalar) (psi : ℝ → ℝ → ℝ) (Rmin Rmax Zmin Zmax atol : ℝ)
      (fuel : ℕ) (e : EqErr),
      findExtremum_1d ms psi ⟨Rmin, Zmax⟩ ⟨Rmax, Zmax⟩ 1e-5 1e-14 = .error e →
      findSaddlePoint ms psi Rmin Rmax Zmin Zmax atol fuel = .error e) ∧
    (∀ {α : Type} [LinearOrderedField α] (bq : Brentq α) (f : α → α) (n : ℕ)
      (xmin xmax atol : α) (maxi fuel : ℕ) (e : RootErr),
      rootSampleLoop f n xmin xmax maxi fuel n = .error e →
      findRoots_1d bq f n xmin xmax atol maxi fuel = .error e) := by
  refine ⟨fun e => rfl, fun ms psi p1 p2 rtol atol e h => ?_,
    fun ms psi Rmin Rmax Zmin Zmax atol fuel e h => ?_,
    fun bq f n xmin xmax atol maxi fuel e h => ?_⟩
  · unfold findExtremum_1d
    rw [h]
  · unfold findSaddlePoint
    rw [h]
    rfl
  · unfold findRoots_1d
    rw [h]

/-- Witness for C9: concrete failing runs of each routine. -/
theorem error_propagation_policy_witness :
    torpexInitXPoint (.error .saddleAssertFailed) =
      { x_points := [], warned := true } ∧
    findExtremum_1d msNone psiW ⟨0, 0⟩ ⟨1, 0⟩ 1e-5 1e-14 =
      .error .findMinimumFailed ∧
    findSaddlePoint msNone psiW 0 1 0 1 1 3 = .error .findMinimumFailed ∧
    findRoots_1d bqMid (fun _ => (0 : ℚ)) 1 0 1 (1/1000) 1024 1 =
      .error .luckyRoot := by
  refine ⟨error_propagation_policy.1 _, error_propagation_policy.2.1 _ _ _ _ _ _ _ rfl,
    error_propagation_policy.2.2.1 _ _ _ _ _ _ _ _ _ rfl,
    error_propagation_policy.2.2.2 _ _ _ _ _ _ _ _ _ ?_⟩
  norm_num [rootSampleLoop, hasLuckyRoot, sampleF, linspace, List.range_succ]

/-! ## C7: the excess-roots warning raises `TypeError` -/

/-- **C7 (code bug).**  When `findRoots_1d` brackets more roots than
requested and every sub-search converges, the call does not complete with a
warning: the `warnings.warn('Warning: found', foundRoots, ...)` call passes
the `int` `foundRoots` as the warning category, which raises `TypeError`.
Concretely, `fW` on `[0, 4]` with `nExpected = 2` brackets four roots and
the call aborts. -/
theorem findRoots_warn_type_error :
    findRoots_1d bqMid fW 2 0 4 (1/1000) 1024 3 =
      .error .warnCategoryTypeError := by
  norm_num [findRoots_1d, rootSampleLoop, hasLuckyRoot, intervalsWithRoots,
    sampleF, linspace, fW, npSign, refineRoots, bqMid, List.range_succ]

/-! ## C6: the bracketing loop of `findRoots_1d` -/

lemma hasLuckyRoot_iff {β : Type} [LinearOrderedField β] (f : β → β)
    (xmin xmax : β) (m : ℕ) :
    hasLuckyRoot f xmin xmax m = true ↔
      ∃ i ≤ m, sampleF f xmin xmax m i = 0 := by
  simp [hasLuckyRoot, List.any_eq_true, List.mem_range, Nat.lt_succ_iff]

/-- **C6.**  `findRoots_1d` samples `f` at `n_intervals + 1` uniform points
starting from `n_intervals = nExpected`; an exactly-zero sample makes it
fail at once; with all samples nonzero and fewer than `nExpected` sign
changes it doubles the resolution, failing as soon as the doubled
`n_intervals` exceeds `maxintervals`; and the loop always decides once the
fuel lets the doubling pass `maxintervals`. -/
theorem findRoots_sampling_spec {α : Type} [LinearOrderedField α]
    (bq : Brentq α) (f : α → α) (n : ℕ) (xmin xmax atol : α)
    (maxi fuel : ℕ) :
    ((∃ i ≤ n, sampleF f xmin xmax n i = 0) →
      findRoots_1d bq f n xmin xmax atol maxi (fuel + 1) =
        .error .luckyRoot) ∧
    (∀ m, (∀ i ≤ m, sampleF f xmin xmax m i ≠ 0) →
      (intervalsWithRoots f xmin xmax m).length < n → maxi < 2 * m →
      rootSampleLoop f n xmin xmax maxi (fuel + 1) m =
        .error .tooManyIntervals) ∧
    (∀ m, (∀ i ≤ m, sampleF f xmin xmax m i ≠ 0) →
      (intervalsWithRoots f xmin xmax m).length < n → 2 * m ≤ maxi →
      rootSampleLoop f n xmin xmax maxi (fuel + 1) m =
        rootSampleLoop f n xmin xmax maxi fuel (2 * m)) ∧
    (∀ m fuelB, maxi < m * 2 ^ fuelB →
      rootSampleLoop f n xmin xmax maxi (fuelB + 1) m ≠
        .error .fuelExhausted) := by
  have hlf : ∀ m, (∀ i ≤ m, sampleF f xmin xmax m i ≠ 0) →
      hasLuckyRoot f xmin xmax m = false := by
    intro m hnz
    rw [Bool.eq_false_iff]
    intro htrue
    obtain ⟨i, hi, h0⟩ := (hasLuckyRoot_iff f xmin xmax m).mp htrue
    exact hnz i hi h0
  refine ⟨fun h => ?_, fun m hnz hlen hmax => ?_, fun m hnz hlen hmax => ?_,
    fun m fuelB => ?_⟩
  · have hl : hasLuckyRoot f xmin xmax n = true :=
      (hasLuckyRoot_iff f xmin xmax n).mpr h
    simp [findRoots_1d, rootSampleLoop, hl]
  · simp [rootSampleLoop, hlf m hnz, Nat.not_le.mpr hlen, hmax]
  · simp [rootSampleLoop, hlf m hnz, Nat.not_le.mpr hlen,
      Nat.not_lt.mpr hmax]
  · induction fuelB generalizing m with
    | zero =>
      intro hm
      simp only [pow_zero, mul_one] at hm
      rw [rootSampleLoop]
      split_ifs with h1 h2 h3
      · simp
      · simp
      · simp
      · exact absurd (lt_of_lt_of_le hm (by omega)) h3
    | succ F ih =>
      intro hm
      rw [rootSampleLoop]
      split_ifs with h1 h2 h3
      · simp
      · simp
      · simp
      · exact ih (2 * m) (by rw [pow_succ] at hm; linarith [hm])

/-- Witness for C6: a sample landing on a root fails at once; a constant
sign pattern doubles past `maxintervals` and fails; sufficient fuel always
decides. -/
theorem findRoots_sampling_spec_witness :
    findRoots_1d bqMid (fun x : ℚ => x - 1) 2 0 2 (1/1000) 1024 1 =
      .error .luckyRoot ∧
    rootSampleLoop (fun _ : ℚ => 1) 1 0 1 600 1 400 =
      .error .tooManyIntervals ∧
    rootSampleLoop (fun _ : ℚ => 1) 1 0 1 1024 (11 + 1) 1 ≠
      .error .fuelExhausted := by
  refine ⟨(findRoots_sampling_spec bqMid _ 2 0 2 (1/1000) 1024 0).1
      ⟨1, by norm_num, by norm_num [sampleF, linspace]⟩,
    (findRoots_sampling_spec bqMid _ 1 0 1 (1/1000) 600 0).2.1 400
      (fun i _ => by norm_num [sampleF, linspace])
      ?_ (by norm_num),
    (findRoots_sampling_spec bqMid _ 1 0 1 (1/1000) 1024 0).2.2.2 1 11
      (by norm_num)⟩
  have : intervalsWithRoots (fun _ : ℚ => 1) 0 1 400 = [] := by
    simp [intervalsWithRoots, sampleF]
  rw [this]
  norm_num

/-! ## Saddle-point loop: shared lemmas and a concrete two-iteration run -/

lemma saddleLoop_le_of_ok
    (vert horiz : Point2D → Point2D → ℝ → Except EqErr Point2D) (atol : ℝ) :
    ∀ (fuel : ℕ) (s s' : SaddleState),
      saddleLoop vert horiz atol fuel s = .ok s' →
      calc_distance s'.extremumVert s'.extremumHoriz ≤ atol := by
  intro fuel
  induction fuel with
  | zero =>
    intro s s' h
    exact absurd h (by simp [saddleLoop, saddleLoopAux])
  | succ F ih =>
    intro s s' h
    unfold saddleLoop at h
    rw [saddleLoopAux] at h
    by_cases hc : calc_distance s.extremumVert s.extremumHoriz > atol
    · rw [if_pos hc] at h
      cases hstep : saddleStep vert horiz atol s with
      | error e => rw [hstep] at h; simp at h
      | ok s2 => rw [hstep] at h; exact ih s2 s' h
    · rw [if_neg hc] at h
      have hs : s = s' := by simpa using h
      rw [← hs]
      exact not_lt.mp hc

lemma saddleC_run :
    saddleLoopAux vsC hsC 1 5 sC = ([0.5 * 1, 0.5 * 1], .ok sC2) := by
  norm_num [saddleLoopAux, saddleStep, vsC, hsC, sC, sC2, calc_distance_horiz]

/-! ## C3: no iteration bound -/

lemma saddleD_stuck :
    ∀ (fuel : ℕ) (s : SaddleState), s.extremumVert = ⟨0, 0⟩ →
      s.extremumHoriz = ⟨10, 0⟩ →
      saddleLoop vsD hsD 1 fuel s = .error .fuelExhausted := by
  intro fuel
  induction fuel with
  | zero => intro s _ _; rfl
  | succ F ih =>
    intro s hV hH
    unfold saddleLoop
    rw [saddleLoopAux]
    have hc : calc_distance s.extremumVert s.extremumHoriz > 1 := by
      rw [hV, hH, calc_distance_horiz]
      norm_num
    rw [if_pos hc]
    have hstep : saddleStep vsD hsD 1 s =
        .ok { posBottom := { s.posBottom with R := 10 }
              posTop := { s.posTop with R := 10 }
              posLeft := { s.posLeft with Z := 0 }
              posRight := { s.posRight with Z := 0 }
              extremumVert := ⟨0, 0⟩
              extremumHoriz := ⟨10, 0⟩ } := rfl
    rw [hstep]
    exact ih _ rfl rfl

/-- **C3 counterexample.**  With search functions that keep returning the
same two points `(0,0)` and `(10,0)`, which stay `10 > atol = 1` apart, the
`while` loop of `findSaddlePoint` never terminates — for every fuel it is
still running — so the call neither returns nor raises a convergence
error. -/
theorem saddle_termination_claim_cex : saddleLoopDiverges vsD hsD 1 sD :=
  fun fuel => saddleD_stuck fuel sD rfl rfl

/-- **C3 (amended).**  `findSaddlePoint`'s fixed-point iteration has no
iteration bound: the loop ends only by the two estimates coming within
`atol` of each other (any state it returns satisfies that), and there are
search outcomes for which it iterates forever, never raising any error. -/
theorem saddle_no_iteration_bound :
    (∀ (vert horiz : Point2D → Point2D → ℝ → Except EqErr Point2D)
      (atol : ℝ) (fuel : ℕ) (s s' : SaddleState),
      saddleLoop vert horiz atol fuel s = .ok s' →
      calc_distance s'.extremumVert s'.extremumHoriz ≤ atol) ∧
    saddleLoopDiverges vsD hsD 1 sD :=
  ⟨fun vert horiz atol => saddleLoop_le_of_ok vert horiz atol,
    fun fuel => saddleD_stuck fuel sD rfl rfl⟩

/-- Witness for C3: the two-iteration run converges and its final state has
estimates within `atol = 1`. -/
theorem saddle_no_iteration_bound_witness :
    calc_distance sC2.extremumVert sC2.extremumHoriz ≤ 1 :=
  saddle_no_iteration_bound.1 vsC hsC 1 5 sC sC2
    (by unfold saddleLoop; rw [saddleC_run])

/-! ## A concrete converging `findSaddlePoint` run on `psi = R^2 - Z^2` -/

@[simp] lemma exceptBind_ok {ε β γ : Type} (a : β) (f : β → Except ε γ) :
    (Except.ok a >>= f : Except ε γ) = f a := rfl

@[simp] lemma exceptBind_error {ε β γ : Type} (e : ε) (f : β → Except ε γ) :
    ((Except.error e : Except ε β) >>= f) = .error e := rfl

lemma hEdgeTop : findExtremum_1d msW psiW ⟨-1, 1⟩ ⟨1, 1⟩ (1 / 100000)
    (1 / 100000000000000) = .ok (⟨0, 1⟩, true) := by
  have hmin : findMinimum_1d msW psiW ⟨-1, 1⟩ ⟨1, 1⟩ (1 / 100000000000000) =
      .ok ⟨0, 1⟩ := by
    norm_num [findMinimum_1d, msW, psiW]
  norm_num [findExtremum_1d, hmin, calc_distance_horiz]

lemma hEdgeBottom : findExtremum_1d msW psiW ⟨-1, -1⟩ ⟨1, -1⟩ (1 / 100000)
    (1 / 100000000000000) = .ok (⟨0, -1⟩, true) := by
  have hmin : findMinimum_1d msW psiW ⟨-1, -1⟩ ⟨1, -1⟩ (1 / 100000000000000) =
      .ok ⟨0, -1⟩ := by
    norm_num [findMinimum_1d, msW, psiW]
  norm_num [findExtremum_1d, hmin, calc_distance_horiz]

lemma hEdgeLeft : findExtremum_1d msW psiW ⟨-1, -1⟩ ⟨-1, 1⟩ (1 / 100000)
    (1 / 100000000000000) = .ok (⟨-1, 0⟩, false) := by
  have hmin : findMinimum_1d msW psiW ⟨-1, -1⟩ ⟨-1, 1⟩ (1 / 100000000000000) =
      .ok ⟨-1, 1⟩ := by
    norm_num [findMinimum_1d, msW, psiW]
  have hmax : findMaximum_1d msW psiW ⟨-1, -1⟩ ⟨-1, 1⟩ (1 / 100000000000000) =
      .ok ⟨-1, 0⟩ := by
    norm_num [findMaximum_1d, msW, psiW]
  norm_num [findExtremum_1d, hmin, hmax, calc_distance_vert]

lemma hEdgeRight : findExtremum_1d msW psiW ⟨1, -1⟩ ⟨1, 1⟩ (1 / 100000)
    (1 / 100000000000000) = .ok (⟨1, 0⟩, false) := by
  have hmin : findMinimum_1d msW psiW ⟨1, -1⟩ ⟨1, 1⟩ (1 / 100000000000000) =
      .ok ⟨1, 1⟩ := by
    norm_num [findMinimum_1d, msW, psiW]
  have hmax : findMaximum_1d msW psiW ⟨1, -1⟩ ⟨1, 1⟩ (1 / 100000000000000) =
      .ok ⟨1, 0⟩ := by
    norm_num [findMaximum_1d, msW, psiW]
  norm_num [findExtremum_1d, hmin, hmax, calc_distance_vert]

lemma findSaddle_concrete :
    findSaddlePoint msW psiW (-1) 1 (-1) 1 4 1 = .ok ⟨0, 0⟩ := by
  have h8 : ¬ ((4:ℝ) < calc_distance ⟨-1, -1⟩ ⟨1, 1⟩) := by
    rw [not_lt]
    unfold calc_distance
    have h : ((1:ℝ) - -1) ^ 2 + ((1:ℝ) - -1) ^ 2 = 8 := by norm_num
    rw [h]
    calc Real.sqrt 8 ≤ Real.sqrt 16 := Real.sqrt_le_sqrt (by norm_num)
      _ = 4 := by
          rw [show (16:ℝ) = 4 ^ 2 by norm_num]
          exact Real.sqrt_sq (by norm_num)
  norm_num [findSaddlePoint, hEdgeTop, hEdgeBottom, hEdgeLeft, hEdgeRight,
    saddleLoop, saddleLoopAux, h8]

/-! ## C2: the tolerance passed to the sub-searches -/

/-- **C2 counterexample.**  A run of the `findSaddlePoint` loop with
`atol = 1` that executes exactly two iterations passes the tolerance
`0.5 * 1` to the sub-searches in *both* iterations: the second iteration's
tolerance is not half of the first one's, so the tolerance is not tightened
every iteration. -/
theorem saddle_tolerance_claim_cex :
    (saddleLoopAux vsC hsC 1 5 sC).1 = [0.5 * 1, 0.5 * 1] ∧
    ¬ ((0.5 * (1 : ℝ)) = (1 / 2) * (0.5 * 1)) := by
  constructor
  · rw [saddleC_run]
  · norm_num

/-- **C2 (amended).**  Every tolerance that the `findSaddlePoint` loop
passes to a 1-d sub-search equals `0.5 * atol` — the same constant in every
iteration, not halved each time; the loop stops when the distance between
the latest vertical and horizontal extremum estimates is at most `atol`, and
the returned value is the midpoint of those two estimates. -/
theorem saddle_tolerance_constant :
    (∀ (vert horiz : Point2D → Point2D → ℝ → Except EqErr Point2D)
      (atol : ℝ) (fuel : ℕ) (s : SaddleState) (t : ℝ),
      t ∈ (saddleLoopAux vert horiz atol fuel s).1 → t = 0.5 * atol) ∧
    (∀ (ms : MinimizeScalar) (psi : ℝ → ℝ → ℝ)
      (Rmin Rmax Zmin Zmax atol : ℝ) (fuel : ℕ) (p : Point2D),
      findSaddlePoint ms psi Rmin Rmax Zmin Zmax atol fuel = .ok p →
      ∃ s' : SaddleState,
        calc_distance s'.extremumVert s'.extremumHoriz ≤ atol ∧
        p = (s'.extremumVert + s'.extremumHoriz) / (2 : ℝ)) := by
  constructor
  · intro vert horiz atol fuel
    induction fuel with
    | zero => intro s t ht; simp [saddleLoopAux] at ht
    | succ F ih =>
      intro s t ht
      rw [saddleLoopAux] at ht
      by_cases hc : calc_distance s.extremumVert s.extremumHoriz > atol
      · rw [if_pos hc] at ht
        cases hstep : saddleStep vert horiz atol s with
        | error e =>
          rw [hstep] at ht
          simpa using ht
        | ok s2 =>
          rw [hstep] at ht
          rcases List.mem_cons.mp ht with h | h
          · exact h
          · exact ih s2 t h
      · rw [if_neg hc] at ht
        simp at ht
  · intro ms psi Rmin Rmax Zmin Zmax atol fuel p h
    unfold findSaddlePoint at h
    cases h1 : findExtremum_1d ms psi ⟨Rmin, Zmax⟩ ⟨Rmax, Zmax⟩ 1e-5 1e-14 with
    | error e => rw [h1] at h; simp at h
    | ok tb =>
    rw [h1] at h
    obtain ⟨posTop, minTop⟩ := tb
    cases h2 : findExtremum_1d ms psi ⟨Rmin, Zmin⟩ ⟨Rmax, Zmin⟩ 1e-5 1e-14 with
    | error e => rw [h2] at h; simp at h
    | ok bb =>
    rw [h2] at h
    obtain ⟨posBottom, minBottom⟩ := bb
    cases h3 : findExtremum_1d ms psi ⟨Rmin, Zmin⟩ ⟨Rmin, Zmax⟩ 1e-5 1e-14 with
    | error e => rw [h3] at h; simp at h
    | ok lb =>
    rw [h3] at h
    obtain ⟨posLeft, minLeft⟩ := lb
    cases h4 : findExtremum_1d ms psi ⟨Rmax, Zmin⟩ ⟨Rmax, Zmax⟩ 1e-5 1e-14 with
    | error e => rw [h4] at h; simp at h
    | ok rb =>
    rw [h4] at h
    obtain ⟨posRight, minRight⟩ := rb
    simp only [exceptBind_ok] at h
    by_cases g1 : minTop ≠ minBottom
    · rw [if_pos g1] at h; simp at h
    rw [if_neg g1] at h
    by_cases g2 : minLeft ≠ minRight
    · rw [if_pos g2] at h; simp at h
    rw [if_neg g2] at h
    by_cases g3 : minTop = minLeft
    · rw [if_pos g3] at h; simp at h
    rw [if_neg g3] at h
    set vert := (if minTop = true then findMaximum_1d ms psi
      else findMinimum_1d ms psi) with hv
    set horiz := (if minLeft = true then findMaximum_1d ms psi
      else findMinimum_1d ms psi) with hh
    cases hloop : saddleLoop vert horiz atol fuel
        { posBottom := posBottom, posTop := posTop, posLeft := posLeft,
          posRight := posRight, extremumVert := ⟨Rmin, Zmin⟩,
          extremumHoriz := ⟨Rmax, Zmax⟩ } with
    | error e => rw [hloop] at h; simp at h
    | ok s' =>
      rw [hloop] at h
      simp only [Except.ok.injEq] at h
      exact ⟨s', saddleLoop_le_of_ok _ _ _ _ _ _ hloop, h.symm⟩

/-- Witness for C2: in the two-iteration run every recorded tolerance is
`0.5 * 1`, and the concrete saddle run on `psi = R^2 - Z^2` returns the
midpoint of two estimates within `atol = 4` of each other. -/
theorem saddle_tolerance_constant_witness :
    ((1 : ℝ) / 2 = 0.5 * 1) ∧
    (∃ s' : SaddleState,
      calc_distance s'.extremumVert s'.extremumHoriz ≤ 4 ∧
      (⟨0, 0⟩ : Point2D) = (s'.extremumVert + s'.extremumHoriz) / (2 : ℝ)) := by
  constructor
  · exact saddle_tolerance_constant.1 vsC hsC 1 5 sC (1 / 2)
      (by rw [saddleC_run]; norm_num)
  · exact saddle_tolerance_constant.2 msW psiW (-1) 1 (-1) 1 4 1 ⟨0, 0⟩
      findSaddle_concrete

/-! ## C4: the interiority threshold of `findExtremum_1d` -/

lemma msEx_min : findMinimum_1d msEx psiEx ⟨0, 0⟩ ⟨1, 0⟩ (1 / 100000000000000)
    = .ok ⟨1/20, 0⟩ := by
  norm_num [findMinimum_1d, msEx, psiEx]

lemma msEx_max : findMaximum_1d msEx psiEx ⟨0, 0⟩ ⟨1, 0⟩ (1 / 100000000000000)
    = .ok ⟨1, 0⟩ := by
  norm_num [findMaximum_1d, msEx, psiEx]

/-- **C4 counterexample.**  On the segment `(0,0)–(1,0)` with `rtol = 1/100`
the bounded minimizer's location `(1/20, 0)` is farther than
`rtol * |pos2 - pos1| = 1/100` from both endpoints, so the claim requires
`findExtremum_1d` to return `((1/20,0), isMinimum = true)`; instead the code
(whose threshold is `10 * rtol * |pos2 - pos1| = 1/10`) rejects both the
minimum and the maximum and fails. -/
theorem findExtremum_threshold_claim_cex :
    findMinimum_1d msEx psiEx ⟨0, 0⟩ ⟨1, 0⟩ (1 / 100000000000000) =
      .ok ⟨1/20, 0⟩ ∧
    (1 / 100) * calc_distance ⟨0, 0⟩ ⟨1, 0⟩ <
      calc_distance ⟨0, 0⟩ ⟨1/20, 0⟩ ∧
    (1 / 100) * calc_distance ⟨0, 0⟩ ⟨1, 0⟩ <
      calc_distance ⟨1, 0⟩ ⟨1/20, 0⟩ ∧
    findExtremum_1d msEx psiEx ⟨0, 0⟩ ⟨1, 0⟩ (1 / 100) (1 / 100000000000000) =
      .error .neitherExtremumFound := by
  refine ⟨msEx_min, ?_, ?_, ?_⟩
  · rw [calc_distance_horiz, calc_distance_horiz]; norm_num [lt_abs]
  · rw [calc_distance_horiz, calc_distance_horiz]; norm_num [lt_abs]
  · norm_num [findExtremum_1d, msEx_min, msEx_max, calc_distance_horiz, lt_abs,
      abs_of_nonneg]

/-- **C4 (amended).**  For every segment `pos1`–`pos2`, with
`sd = 10 * rtol * |pos2 - pos1|` and when both 1-d searches converge,
`findExtremum_1d` returns `(minpos, isMinimum = true)` exactly when the
minimizer's location is farther than `sd` from both endpoints; otherwise it
returns `(maxpos, isMinimum = false)` when the maximizer's location is
farther than `sd` from both endpoints; and when neither extremum is interior
by this threshold it fails. -/
theorem findExtremum_1d_interior_spec (ms : MinimizeScalar)
    (psi : ℝ → ℝ → ℝ) (p1 p2 : Point2D) (rtol atol : ℝ)
    (minpos maxpos : Point2D)
    (hmin : findMinimum_1d ms psi p1 p2 atol = .ok minpos)
    (hmax : findMaximum_1d ms psi p1 p2 atol = .ok maxpos) :
    ((10 * rtol * calc_distance p1 p2 < calc_distance p1 minpos ∧
      10 * rtol * calc_distance p1 p2 < calc_distance p2 minpos) →
      findExtremum_1d ms psi p1 p2 rtol atol = .ok (minpos, true)) ∧
    (¬ (10 * rtol * calc_distance p1 p2 < calc_distance p1 minpos ∧
        10 * rtol * calc_distance p1 p2 < calc_distance p2 minpos) →
      (10 * rtol * calc_distance p1 p2 < calc_distance p1 maxpos ∧
        10 * rtol * calc_distance p1 p2 < calc_distance p2 maxpos) →
      findExtremum_1d ms psi p1 p2 rtol atol = .ok (maxpos, false)) ∧
    (¬ (10 * rtol * calc_distance p1 p2 < calc_distance p1 minpos ∧
        10 * rtol * calc_distance p1 p2 < calc_distance p2 minpos) →
      ¬ (10 * rtol * calc_distance p1 p2 < calc_distance p1 maxpos ∧
        10 * rtol * calc_distance p1 p2 < calc_distance p2 maxpos) →
      findExtremum_1d ms psi p1 p2 rtol atol =
        .error .neitherExtremumFound) ∧
    (findExtremum_1d ms psi p1 p2 rtol atol = .ok (minpos, true) →
      (10 * rtol * calc_distance p1 p2 < calc_distance p1 minpos ∧
        10 * rtol * calc_distance p1 p2 < calc_distance p2 minpos)) := by
  refine ⟨fun hint => ?_, fun hnint hintmax => ?_, fun hnint hnintmax => ?_,
    fun hok => ?_⟩
  · simp only [findExtremum_1d, hmin, gt_iff_lt]
    rw [if_pos hint]
  · simp only [findExtremum_1d, hmin, hmax, gt_iff_lt]
    rw [if_neg hnint, if_pos hintmax]
  · simp only [findExtremum_1d, hmin, hmax, gt_iff_lt]
    rw [if_neg hnint, if_neg hnintmax]
  · by_cases hint : 10 * rtol * calc_distance p1 p2 < calc_distance p1 minpos ∧
        10 * rtol * calc_distance p1 p2 < calc_distance p2 minpos
    · exact hint
    · exfalso
      simp only [findExtremum_1d, hmin, hmax, gt_iff_lt] at hok
      rw [if_neg hint] at hok
      by_cases hintmax : 10 * rtol * calc_distance p1 p2 <
          calc_distance p1 maxpos ∧
          10 * rtol * calc_distance p1 p2 < calc_distance p2 maxpos
      · rw [if_pos hintmax] at hok
        simp at hok
      · rw [if_neg hintmax] at hok
        simp at hok

/-- Witness for C4: with `rtol = 1/1000` the threshold is `1/100`, the
minimizer's location `(1/20, 0)` is interior, and `findExtremum_1d` returns
it flagged as a minimum. -/
theorem findExtremum_1d_interior_spec_witness :
    findExtremum_1d msEx psiEx ⟨0, 0⟩ ⟨1, 0⟩ (1 / 1000)
      (1 / 100000000000000) = .ok (⟨1/20, 0⟩, true) :=
  (findExtremum_1d_interior_spec msEx psiEx ⟨0, 0⟩ ⟨1, 0⟩ (1 / 1000)
      (1 / 100000000000000) ⟨1/20, 0⟩ ⟨1, 0⟩ msEx_min msEx_max).1
    (by rw [calc_distance_horiz, calc_distance_horiz, calc_distance_horiz]
        norm_num [lt_abs])

/-! ## C8: `reverse()` and the `distance` array -/

lemma distAt_succ (pts : ℕ → Point2D) (i : ℕ) :
    distAt pts (i + 1) = distAt pts i + calc_distance (pts i) (pts (i + 1)) :=
  Finset.sum_range_succ _ _

lemma distAt_mono (pts : ℕ → Point2D) {a b : ℕ} (h : a ≤ b) :
    distAt pts a ≤ distAt pts b := by
  unfold distAt
  exact Finset.sum_le_sum_of_subset_of_nonneg (Finset.range_subset.mpr h)
    (fun i _ _ => calc_distance_nonneg _ _)

lemma distAt_rev (pts : ℕ → Point2D) (n : ℕ) :
    ∀ i, i < n →
      distAt (revPts n pts) i = distAt pts (n - 1) - distAt pts (n - 1 - i) := by
  intro i
  induction i with
  | zero => intro _; simp [distAt]
  | succ j ih =>
    intro hj
    have hm : n - 1 - j = (n - 1 - (j + 1)) + 1 := by omega
    rw [distAt_succ, ih (by omega)]
    have h1 : revPts n pts j = pts ((n - 1 - (j + 1)) + 1) := by
      unfold revPts
      rw [← hm]
    have h2 : revPts n pts (j + 1) = pts (n - 1 - (j + 1)) := rfl
    rw [h1, h2, hm, distAt_succ, calc_distance_comm]
    ring

/-- **C8.**  For a contour of `n` points, `reverse()` reverses the point
order and the recomputed arc lengths satisfy
`distance_new[i] = total - distance_old[n-1-i]` with
`total = distance_old[n-1]`; in particular the total length is preserved,
`distance_new[0] = 0`, and `distance_new` is monotonically
non-decreasing. -/
theorem contour_reverse_spec (pts : ℕ → Point2D) (n : ℕ) (hn : 0 < n)
    (i : ℕ) (hi : i < n) :
    distAt (revPts n pts) i = distAt pts (n - 1) - distAt pts (n - 1 - i) ∧
    distAt (revPts n pts) (n - 1) = distAt pts (n - 1) ∧
    distAt (revPts n pts) 0 = 0 ∧
    (∀ a b, a ≤ b → distAt (revPts n pts) a ≤ distAt (revPts n pts) b) := by
  refine ⟨distAt_rev pts n i hi, ?_, by simp [distAt],
    fun a b h => distAt_mono _ h⟩
  rw [distAt_rev pts n (n - 1) (by omega)]
  simp [distAt]

/-- Witness for C8: a three-point contour on the `R` axis. -/
theorem contour_reverse_spec_witness :
    (0 < 3 ∧ 1 < 3) ∧
    (distAt (revPts 3 ptsC) 1 = distAt ptsC (3 - 1) - distAt ptsC (3 - 1 - 1) ∧
     distAt (revPts 3 ptsC) (3 - 1) = distAt ptsC (3 - 1) ∧
     distAt (revPts 3 ptsC) 0 = 0 ∧
     (∀ a b, a ≤ b → distAt (revPts 3 ptsC) a ≤ distAt (revPts 3 ptsC) b)) :=
  ⟨⟨by norm_num, by norm_num⟩,
    contour_reverse_spec ptsC 3 (by norm_num) 1 (by norm_num)⟩

/-! ## C10: search results stay on the segment / in the box -/

lemma interval_convex {lo hi a b s : ℝ} (hs0 : 0 ≤ s) (hs1 : s ≤ 1)
    (ha : lo ≤ a) (ha' : a ≤ hi) (hb : lo ≤ b) (hb' : b ≤ hi) :
    lo ≤ a + s * (b - a) ∧ a + s * (b - a) ≤ hi := by
  constructor <;> nlinarith

lemma onSegment_inBox {Rmin Rmax Zmin Zmax : ℝ} {p1 p2 q : Point2D}
    (hseg : onSegment p1 p2 q) (h1 : inBox Rmin Rmax Zmin Zmax p1)
    (h2 : inBox Rmin Rmax Zmin Zmax p2) : inBox Rmin Rmax Zmin Zmax q := by
  obtain ⟨s, hs0, hs1, hq⟩ := hseg
  obtain ⟨hA, hB, hC, hD⟩ := h1
  obtain ⟨hA', hB', hC', hD'⟩ := h2
  subst hq
  simp only [Point2D.sub_def, Point2D.smul_def, Point2D.add_def]
  exact ⟨(interval_convex hs0 hs1 hA hB hA' hB').1,
    (interval_convex hs0 hs1 hA hB hA' hB').2,
    (interval_convex hs0 hs1 hC hD hC' hD').1,
    (interval_convex hs0 hs1 hC hD hC' hD').2⟩

lemma midpoint_inBox {Rmin Rmax Zmin Zmax : ℝ} {a b : Point2D}
    (ha : inBox Rmin Rmax Zmin Zmax a) (hb : inBox Rmin Rmax Zmin Zmax b) :
    inBox Rmin Rmax Zmin Zmax ((a + b) / (2 : ℝ)) := by
  obtain ⟨hA, hB, hC, hD⟩ := ha
  obtain ⟨hA', hB', hC', hD'⟩ := hb
  simp only [Point2D.add_def, Point2D.div_def, inBox]
  refine ⟨by linarith, by linarith, by linarith, by linarith⟩

lemma findMinimum_1d_onSegment {ms : MinimizeScalar}
    (hms : ∀ g t x, ms g t = some x → 0 ≤ x ∧ x ≤ 1) (psi : ℝ → ℝ → ℝ)
    (p1 p2 : Point2D) (atol : ℝ) (q : Point2D)
    (h : findMinimum_1d ms psi p1 p2 atol = .ok q) : onSegment p1 p2 q := by
  simp only [findMinimum_1d] at h
  cases hg : ms (fun s => psi (p1 + s * (p2 - p1)).R (p1 + s * (p2 - p1)).Z)
      atol with
  | none => rw [hg] at h; simp at h
  | some x =>
    rw [hg] at h
    simp only [Except.ok.injEq] at h
    obtain ⟨h0, h1⟩ := hms _ _ _ hg
    exact ⟨x, h0, h1, h.symm⟩

lemma findMaximum_1d_onSegment {ms : MinimizeScalar}
    (hms : ∀ g t x, ms g t = some x → 0 ≤ x ∧ x ≤ 1) (psi : ℝ → ℝ → ℝ)
    (p1 p2 : Point2D) (atol : ℝ) (q : Point2D)
    (h : findMaximum_1d ms psi p1 p2 atol = .ok q) : onSegment p1 p2 q := by
  simp only [findMaximum_1d] at h
  cases hg : ms (fun s => -psi (p1 + s * (p2 - p1)).R (p1 + s * (p2 - p1)).Z)
      atol with
  | none => rw [hg] at h; simp at h
  | some x =>
    rw [hg] at h
    simp only [Except.ok.injEq] at h
    obtain ⟨h0, h1⟩ := hms _ _ _ hg
    exact ⟨x, h0, h1, h.symm⟩

lemma saddleStep_inBox {Rmin Rmax Zmin Zmax : ℝ}
    {vert horiz : Point2D → Point2D → ℝ → Except EqErr Point2D}
    (hvert : ∀ p1 p2 t q, vert p1 p2 t = .ok q → onSegment p1 p2 q)
    (hhoriz : ∀ p1 p2 t q, horiz p1 p2 t = .ok q → onSegment p1 p2 q)
    {atol : ℝ} {s s' : SaddleState}
    (hbox : stateInBox Rmin Rmax Zmin Zmax s)
    (h : saddleStep vert horiz atol s = .ok s') :
    stateInBox Rmin Rmax Zmin Zmax s' := by
  obtain ⟨hB, hT, hL, hR, _, _⟩ := hbox
  unfold saddleStep at h
  cases hV : vert s.posBottom s.posTop (0.5 * atol) with
  | error e => rw [hV] at h; simp at h
  | ok eV =>
    rw [hV] at h
    dsimp only [] at h
    have heV : inBox Rmin Rmax Zmin Zmax eV :=
      onSegment_inBox (hvert _ _ _ _ hV) hB hT
    cases hH : horiz { s.posLeft with Z := eV.Z }
        { s.posRight with Z := eV.Z } (0.5 * atol) with
    | error e => rw [hH] at h; simp at h
    | ok eH =>
      rw [hH] at h
      dsimp only [] at h
      have hpL : inBox Rmin Rmax Zmin Zmax { s.posLeft with Z := eV.Z } :=
        ⟨hL.1, hL.2.1, heV.2.2.1, heV.2.2.2⟩
      have hpR : inBox Rmin Rmax Zmin Zmax { s.posRight with Z := eV.Z } :=
        ⟨hR.1, hR.2.1, heV.2.2.1, heV.2.2.2⟩
      have heH : inBox Rmin Rmax Zmin Zmax eH :=
        onSegment_inBox (hhoriz _ _ _ _ hH) hpL hpR
      simp only [Except.ok.injEq] at h
      rw [← h]
      exact ⟨⟨heH.1, heH.2.1, hB.2.2.1, hB.2.2.2⟩,
        ⟨heH.1, heH.2.1, hT.2.2.1, hT.2.2.2⟩, hpL, hpR, heV, heH⟩

lemma saddleLoop_inBox {Rmin Rmax Zmin Zmax : ℝ}
    {vert horiz : Point2D → Point2D → ℝ → Except EqErr Point2D}
    (hvert : ∀ p1 p2 t q, vert p1 p2 t = .ok q → onSegment p1 p2 q)
    (hhoriz : ∀ p1 p2 t q, horiz p1 p2 t = .ok q → onSegment p1 p2 q)
    (atol : ℝ) :
    ∀ (fuel : ℕ) (s s' : SaddleState), stateInBox Rmin Rmax Zmin Zmax s →
      saddleLoop vert horiz atol fuel s = .ok s' →
      stateInBox Rmin Rmax Zmin Zmax s' := by
  intro fuel
  induction fuel with
  | zero =>
    intro s s' _ h
    exact absurd h (by simp [saddleLoop, saddleLoopAux])
  | succ F ih =>
    intro s s' hbox h
    unfold saddleLoop at h
    rw [saddleLoopAux] at h
    by_cases hc : calc_distance s.extremumVert s.extremumHoriz > atol
    · rw [if_pos hc] at h
      cases hstep : saddleStep vert horiz atol s with
      | error e => rw [hstep] at h; simp at h
      | ok s2 =>
        rw [hstep] at h
        exact ih s2 s' (saddleStep_inBox hvert hhoriz hbox hstep) h
    · rw [if_neg hc] at h
      have hs : s = s' := by simpa using h
      rw [← hs]
      exact hbox

/-- **C10.**  When the bounded minimizer honours its bounds `(0, 1)`, every
point returned by `findMinimum_1d`, `findMaximum_1d` or `findExtremum_1d`
lies on the closed segment from `pos1` to `pos2`, and every saddle-point
estimate returned by `findSaddlePoint` lies in the closed search box
`[Rmin,Rmax] × [Zmin,Zmax]`. -/
theorem search_results_in_box (ms : MinimizeScalar)
    (hms : ∀ g t x, ms g t = some x → 0 ≤ x ∧ x ≤ 1) (psi : ℝ → ℝ → ℝ) :
    (∀ p1 p2 atol q, findMinimum_1d ms psi p1 p2 atol = .ok q →
      onSegment p1 p2 q) ∧
    (∀ p1 p2 atol q, findMaximum_1d ms psi p1 p2 atol = .ok q →
      onSegment p1 p2 q) ∧
    (∀ p1 p2 rtol atol q b, findExtremum_1d ms psi p1 p2 rtol atol =
      .ok (q, b) → onSegment p1 p2 q) ∧
    (∀ Rmin Rmax Zmin Zmax atol fuel p, Rmin ≤ Rmax → Zmin ≤ Zmax →
      findSaddlePoint ms psi Rmin Rmax Zmin Zmax atol fuel = .ok p →
      inBox Rmin Rmax Zmin Zmax p) := by
  have hext : ∀ p1 p2 rtol atol q b,
      findExtremum_1d ms psi p1 p2 rtol atol = .ok (q, b) →
      onSegment p1 p2 q := by
    intro p1 p2 rtol atol q b h
    simp only [findExtremum_1d] at h
    cases hm : findMinimum_1d ms psi p1 p2 atol with
    | error e => rw [hm] at h; simp at h
    | ok minpos =>
      rw [hm] at h
      dsimp only [] at h
      by_cases hint : calc_distance p1 minpos >
          10 * rtol * calc_distance p1 p2 ∧
          calc_distance p2 minpos > 10 * rtol * calc_distance p1 p2
      · rw [if_pos hint] at h
        simp only [Except.ok.injEq, Prod.mk.injEq] at h
        rw [← h.1]
        exact findMinimum_1d_onSegment hms psi p1 p2 atol minpos hm
      · rw [if_neg hint] at h
        cases hM : findMaximum_1d ms psi p1 p2 atol with
        | error e => rw [hM] at h; simp at h
        | ok maxpos =>
          rw [hM] at h
          dsimp only [] at h
          by_cases hintM : calc_distance p1 maxpos >
              10 * rtol * calc_distance p1 p2 ∧
              calc_distance p2 maxpos > 10 * rtol * calc_distance p1 p2
          · rw [if_pos hintM] at h
            simp only [Except.ok.injEq, Prod.mk.injEq] at h
            rw [← h.1]
            exact findMaximum_1d_onSegment hms psi p1 p2 atol maxpos hM
          · rw [if_neg hintM] at h
            simp at h
  refine ⟨fun p1 p2 atol q h => findMinimum_1d_onSegment hms psi p1 p2 atol q h,
    fun p1 p2 atol q h => findMaximum_1d_onSegment hms psi p1 p2 atol q h,
    hext, ?_⟩
  intro Rmin Rmax Zmin Zmax atol fuel p hRle hZle h
  unfold findSaddlePoint at h
  cases h1 : findExtremum_1d ms psi ⟨Rmin, Zmax⟩ ⟨Rmax, Zmax⟩ 1e-5 1e-14 with
  | error e => rw [h1] at h; simp at h
  | ok tb =>
  rw [h1] at h
  obtain ⟨posTop, minTop⟩ := tb
  cases h2 : findExtremum_1d ms psi ⟨Rmin, Zmin⟩ ⟨Rmax, Zmin⟩ 1e-5 1e-14 with
  | error e => rw [h2] at h; simp at h
  | ok bb =>
  rw [h2] at h
  obtain ⟨posBottom, minBottom⟩ := bb
  cases h3 : findExtremum_1d ms psi ⟨Rmin, Zmin⟩ ⟨Rmin, Zmax⟩ 1e-5 1e-14 with
  | error e => rw [h3] at h; simp at h
  | ok lb =>
  rw [h3] at h
  obtain ⟨posLeft, minLeft⟩ := lb
  cases h4 : findExtremum_1d ms psi ⟨Rmax, Zmin⟩ ⟨Rmax, Zmax⟩ 1e-5 1e-14 with
  | error e => rw [h4] at h; simp at h
  | ok rb =>
  rw [h4] at h
  obtain ⟨posRight, minRight⟩ := rb
  simp only [exceptBind_ok] at h
  by_cases g1 : minTop ≠ minBottom
  · rw [if_pos g1] at h; simp at h
  rw [if_neg g1] at h
  by_cases g2 : minLeft ≠ minRight
  · rw [if_pos g2] at h; simp at h
  rw [if_neg g2] at h
  by_cases g3 : minTop = minLeft
  · rw [if_pos g3] at h; simp at h
  rw [if_neg g3] at h
  have hcTL : inBox Rmin Rmax Zmin Zmax ⟨Rmin, Zmax⟩ :=
    ⟨le_refl _, hRle, hZle, le_refl _⟩
  have hcTR : inBox Rmin Rmax Zmin Zmax ⟨Rmax, Zmax⟩ :=
    ⟨hRle, le_refl _, hZle, le_refl _⟩
  have hcBL : inBox Rmin Rmax Zmin Zmax ⟨Rmin, Zmin⟩ :=
    ⟨le_refl _, hRle, le_refl _, hZle⟩
  have hcBR : inBox Rmin Rmax Zmin Zmax ⟨Rmax, Zmin⟩ :=
    ⟨hRle, le_refl _, le_refl _, hZle⟩
  have hTopBox : inBox Rmin Rmax Zmin Zmax posTop :=
    onSegment_inBox (hext _ _ _ _ _ _ h1) hcTL hcTR
  have hBotBox : inBox Rmin Rmax Zmin Zmax posBottom :=
    onSegment_inBox (hext _ _ _ _ _ _ h2) hcBL hcBR
  have hLeftBox : inBox Rmin Rmax Zmin Zmax posLeft :=
    onSegment_inBox (hext _ _ _ _ _ _ h3) hcBL hcTL
  have hRightBox : inBox Rmin Rmax Zmin Zmax posRight :=
    onSegment_inBox (hext _ _ _ _ _ _ h4) hcBR hcTR
  set vert := (if minTop = true then findMaximum_1d ms psi
    else findMinimum_1d ms psi) with hv
  set horiz := (if minLeft = true then findMaximum_1d ms psi
    else findMinimum_1d ms psi) with hh
  have hvertSeg : ∀ p1 p2 t q, vert p1 p2 t = .ok q → onSegment p1 p2 q := by
    intro p1 p2 t q hq
    rw [hv] at hq
    by_cases hb : minTop = true
    · rw [if_pos hb] at hq
      exact findMaximum_1d_onSegment hms psi p1 p2 t q hq
    · rw [if_neg hb] at hq
      exact findMinimum_1d_onSegment hms psi p1 p2 t q hq
  have hhorizSeg : ∀ p1 p2 t q, horiz p1 p2 t = .ok q → onSegment p1 p2 q := by
    intro p1 p2 t q hq
    rw [hh] at hq
    by_cases hb : minLeft = true
    · rw [if_pos hb] at hq
      exact findMaximum_1d_onSegment hms psi p1 p2 t q hq
    · rw [if_neg hb] at hq
      exact findMinimum_1d_onSegment hms psi p1 p2 t q hq
  cases hloop : saddleLoop vert horiz atol fuel
      { posBottom := posBottom, posTop := posTop, posLeft := posLeft,
        posRight := posRight, extremumVert := ⟨Rmin, Zmin⟩,
        extremumHoriz := ⟨Rmax, Zmax⟩ } with
  | error e => rw [hloop] at h; simp at h
  | ok s' =>
    rw [hloop] at h
    simp only [Except.ok.injEq] at h
    have hbox' : stateInBox Rmin Rmax Zmin Zmax s' :=
      saddleLoop_inBox hvertSeg hhorizSeg atol fuel _ s'
        ⟨hBotBox, hTopBox, hLeftBox, hRightBox, hcBL, hcTR⟩ hloop
    rw [← h]
    exact midpoint_inBox hbox'.2.2.2.2.1 hbox'.2.2.2.2.2

lemma msEx_bounded : ∀ g t x, msEx g t = some x → 0 ≤ x ∧ x ≤ 1 := by
  intro g t x h
  unfold msEx at h
  split_ifs at h <;> simp only [Option.some.injEq] at h <;> rw [← h] <;>
    norm_num

lemma msW_bounded : ∀ g t x, msW g t = some x → 0 ≤ x ∧ x ≤ 1 := by
  intro g t x h
  unfold msW at h
  split_ifs at h <;> simp only [Option.some.injEq] at h <;> rw [← h] <;>
    norm_num

/-- Witness for C10: a concrete minimizer result lies on its segment, and
the concrete saddle run's estimate lies in its box. -/
theorem search_results_in_box_witness :
    onSegment ⟨0, 0⟩ ⟨1, 0⟩ ⟨1/20, 0⟩ ∧ inBox (-1) 1 (-1) 1 ⟨0, 0⟩ :=
  ⟨(search_results_in_box msEx msEx_bounded psiEx).1 ⟨0, 0⟩ ⟨1, 0⟩
      (1 / 100000000000000) ⟨1/20, 0⟩ msEx_min,
    (search_results_in_box msW msW_bounded psiW).2.2.2 (-1) 1 (-1) 1 4 1
      ⟨0, 0⟩ (by norm_num) (by norm_num) findSaddle_concrete⟩

/-! ## C1: the DCT round-trip -/

lemma cos_geom_sum (N : ℕ) (θ : ℝ) (hz : Complex.exp (θ * Complex.I) ≠ 1) :
    ∑ k ∈ Finset.range N, Real.cos ((k : ℝ) * θ) =
      ((Complex.exp (θ * Complex.I) ^ N - 1) /
        (Complex.exp (θ * Complex.I) - 1)).re := by
  rw [← geom_sum_eq hz N, Complex.re_sum]
  refine Finset.sum_congr rfl fun k _ => ?_
  rw [← Complex.exp_nat_mul]
  rw [show (k : ℂ) * ((θ : ℂ) * Complex.I) = ((k * θ : ℝ) : ℂ) * Complex.I by
    push_cast; ring]
  rw [Complex.exp_ofReal_mul_I_re]

lemma exp_ne_one_of_ne (N : ℕ) (hN : 0 < N) (m : ℤ)
    (hm : ∀ n : ℤ, m ≠ 2 * N * n) :
    Complex.exp ((Real.pi * m / N : ℝ) * Complex.I) ≠ 1 := by
  intro h
  obtain ⟨n, hn⟩ := Complex.exp_eq_one_iff.mp h
  have hI : ((Real.pi * m / N : ℝ) : ℂ) = (n : ℂ) * (2 * (Real.pi : ℂ)) :=
    mul_right_cancel₀ Complex.I_ne_zero (by rw [hn]; ring)
  have hre : (Real.pi * m / N : ℝ) = (n : ℝ) * (2 * Real.pi) := by
    have := congrArg Complex.re hI
    simpa using this
  have hNne : (N : ℝ) ≠ 0 := Nat.cast_ne_zero.mpr hN.ne'
  have hm' : (m : ℝ) = 2 * N * n := by
    field_simp at hre
    exact mul_left_cancel₀ Real.pi_ne_zero (by rw [hre]; ring)
  have : m = 2 * N * n := by
    exact_mod_cast hm'
  exact hm n this

lemma zpow_negOne_odd {m : ℤ} (hm : Odd m) : ((-1 : ℂ)) ^ m = -1 :=
  Odd.neg_one_zpow hm

lemma cosSum_odd (N : ℕ) (hN : 0 < N) (m : ℤ) (hm : Odd m) :
    ∑ k ∈ Finset.range N, Real.cos ((k : ℝ) * (Real.pi * m / N)) = 1 := by
  have hNne : (N : ℝ) ≠ 0 := Nat.cast_ne_zero.mpr hN.ne'
  have hz : Complex.exp ((Real.pi * m / N : ℝ) * Complex.I) ≠ 1 := by
    refine exp_ne_one_of_ne N hN m (fun n hn => ?_)
    have he : Even m := ⟨(N : ℤ) * n, by rw [hn]; ring⟩
    exact (Int.not_odd_iff_even.mpr he) hm
  set z := Complex.exp ((Real.pi * m / N : ℝ) * Complex.I) with hzdef
  have hzN : z ^ N = -1 := by
    have h1 : (N : ℝ) * (Real.pi * m / N) = Real.pi * m := by field_simp
    rw [hzdef, ← Complex.exp_nat_mul]
    rw [show (N : ℂ) * (((Real.pi * m / N : ℝ) : ℂ) * Complex.I) =
        (((N : ℝ) * (Real.pi * m / N) : ℝ) : ℂ) * Complex.I by
      push_cast; ring]
    rw [h1]
    rw [show ((Real.pi * m : ℝ) : ℂ) * Complex.I =
        (m : ℂ) * ((Real.pi : ℂ) * Complex.I) by push_cast; ring]
    rw [Complex.exp_int_mul, Complex.exp_pi_mul_I]
    exact Odd.neg_one_zpow hm
  rw [cos_geom_sum N _ hz, ← hzdef, hzN]
  have hzne : z - 1 ≠ 0 := sub_ne_zero.mpr hz
  have hz0 : z ≠ 0 := Complex.exp_ne_zero _
  have hconj : (starRingEnd ℂ) z = z⁻¹ := by
    rw [hzdef, ← Complex.exp_conj]
    rw [show (starRingEnd ℂ) (((Real.pi * m / N : ℝ) : ℂ) * Complex.I) =
        -(((Real.pi * m / N : ℝ) : ℂ) * Complex.I) by
      rw [map_mul, Complex.conj_ofReal, Complex.conj_I]; ring]
    rw [Complex.exp_neg]
  have hinvne : z⁻¹ - 1 ≠ 0 := by
    intro hc
    apply hz
    have : z⁻¹ = 1 := by linear_combination hc
    rwa [inv_eq_one] at this
  have h2 : (-1 - 1) / (z - 1) + (starRingEnd ℂ) ((-1 - 1) / (z - 1)) = 2 := by
    have h1z : (1 : ℂ) - z ≠ 0 := sub_ne_zero.mpr (Ne.symm hz)
    simp only [map_div₀, map_sub, map_neg, map_one, hconj]
    field_simp [h1z]
    ring
  rw [Complex.add_conj] at h2
  have h2' : (2 : ℂ) = ((2 : ℝ) : ℂ) := by norm_num
  rw [h2'] at h2
  have := Complex.ofReal_inj.mp h2
  linarith

lemma cosSum_even_not_dvd (N : ℕ) (hN : 0 < N) (p : ℤ) (hp : ¬ (N : ℤ) ∣ p) :
    ∑ k ∈ Finset.range N, Real.cos ((k : ℝ) * (Real.pi * (2 * p) / N)) = 0 := by
  have hNne : (N : ℝ) ≠ 0 := Nat.cast_ne_zero.mpr hN.ne'
  have hz : Complex.exp ((Real.pi * (2 * p : ℤ) / N : ℝ) * Complex.I) ≠ 1 := by
    refine exp_ne_one_of_ne N hN (2 * p) (fun n hn => ?_)
    exact hp ⟨n, mul_left_cancel₀ (by norm_num : (2 : ℤ) ≠ 0)
      (by rw [hn]; ring)⟩
  have hzN : Complex.exp ((Real.pi * (2 * p : ℤ) / N : ℝ) * Complex.I) ^ N
      = 1 := by
    rw [← Complex.exp_nat_mul]
    have h1 : (N : ℝ) * (Real.pi * (2 * p : ℤ) / N) = Real.pi * (2 * p : ℤ) := by
      field_simp
    rw [show (N : ℂ) * (((Real.pi * (2 * p : ℤ) / N : ℝ) : ℂ) * Complex.I) =
        (((N : ℝ) * (Real.pi * (2 * p : ℤ) / N) : ℝ) : ℂ) * Complex.I by
      push_cast; ring]
    rw [h1]
    rw [show ((Real.pi * (2 * p : ℤ) : ℝ) : ℂ) * Complex.I =
        (p : ℂ) * (2 * (Real.pi : ℂ) * Complex.I) by push_cast; ring]
    exact Complex.exp_int_mul_two_pi_mul_I p
  have := cos_geom_sum N (Real.pi * (2 * p : ℤ) / N : ℝ) hz
  rw [hzN] at this
  simpa using this

lemma weighted_cos_sum (N : ℕ) (hN : 0 < N) (θ : ℝ) :
    ∑ k ∈ Finset.range N,
      ((if k = 0 then (1:ℝ)/2 else 1) * Real.cos ((k:ℝ) * θ)) =
      (∑ k ∈ Finset.range N, Real.cos ((k:ℝ) * θ)) - 1/2 := by
  have hsplit : ∀ k ∈ Finset.range N,
      (if k = 0 then (1:ℝ)/2 else 1) * Real.cos ((k:ℝ) * θ) =
        Real.cos ((k:ℝ) * θ) -
          (if k = 0 then Real.cos ((k:ℝ) * θ) / 2 else 0) := by
    intro k _
    split_ifs <;> ring
  rw [Finset.sum_congr rfl hsplit, Finset.sum_sub_distrib,
    Finset.sum_ite_eq' (Finset.range N) 0
      (fun k => Real.cos ((k:ℝ) * θ) / 2)]
  simp [Finset.mem_range.mpr hN]

set_option maxHeartbeats 1000000 in
lemma dct_kernel (N : ℕ) (hN : 0 < N) (i r : Fin N) :
    ∑ k ∈ Finset.range N, ((if k = 0 then (1:ℝ)/2 else 1) *
      (Real.cos (Real.pi * k * (2 * (r:ℕ) + 1) / (2 * N)) *
       Real.cos (Real.pi * k * (2 * (i:ℕ) + 1) / (2 * N)))) =
    if i = r then (N : ℝ) / 2 else 0 := by
  have hNne : (N : ℝ) ≠ 0 := Nat.cast_ne_zero.mpr hN.ne'
  have hpoint : ∀ k ∈ Finset.range N,
      (if k = 0 then (1:ℝ)/2 else 1) *
        (Real.cos (Real.pi * k * (2 * (r:ℕ) + 1) / (2 * N)) *
         Real.cos (Real.pi * k * (2 * (i:ℕ) + 1) / (2 * N))) =
      (1/2) * ((if k = 0 then (1:ℝ)/2 else 1) *
        Real.cos ((k:ℝ) * (Real.pi * ((((r:ℕ):ℤ) - ((i:ℕ):ℤ) : ℤ) : ℝ) / N)))
      + (1/2) * ((if k = 0 then (1:ℝ)/2 else 1) *
        Real.cos ((k:ℝ) *
          (Real.pi * ((((r:ℕ):ℤ) + ((i:ℕ):ℤ) + 1 : ℤ) : ℝ) / N))) := by
    intro k _
    have h2 := Real.two_mul_cos_mul_cos
      (Real.pi * k * (2 * (r:ℕ) + 1) / (2 * N))
      (Real.pi * k * (2 * (i:ℕ) + 1) / (2 * N))
    have hxy1 : Real.pi * k * (2 * (r:ℕ) + 1) / (2 * N) -
        Real.pi * k * (2 * (i:ℕ) + 1) / (2 * N) =
        (k:ℝ) * (Real.pi * ((((r:ℕ):ℤ) - ((i:ℕ):ℤ) : ℤ) : ℝ) / N) := by
      push_cast
      ring
    have hxy2 : Real.pi * k * (2 * (r:ℕ) + 1) / (2 * N) +
        Real.pi * k * (2 * (i:ℕ) + 1) / (2 * N) =
        (k:ℝ) * (Real.pi * ((((r:ℕ):ℤ) + ((i:ℕ):ℤ) + 1 : ℤ) : ℝ) / N) := by
      push_cast
      ring
    rw [hxy1, hxy2] at h2
    have hprod : Real.cos (Real.pi * k * (2 * (r:ℕ) + 1) / (2 * N)) *
        Real.cos (Real.pi * k * (2 * (i:ℕ) + 1) / (2 * N)) =
        (Real.cos ((k:ℝ) *
            (Real.pi * ((((r:ℕ):ℤ) - ((i:ℕ):ℤ) : ℤ) : ℝ) / N)) +
         Real.cos ((k:ℝ) *
            (Real.pi * ((((r:ℕ):ℤ) + ((i:ℕ):ℤ) + 1 : ℤ) : ℝ) / N))) / 2 := by
      linarith
    rw [hprod]
    ring
  rw [Finset.sum_congr rfl hpoint, Finset.sum_add_distrib,
    ← Finset.mul_sum, ← Finset.mul_sum, weighted_cos_sum N hN _,
    weighted_cos_sum N hN _]
  by_cases heq : i = r
  · subst heq
    have hz2 : ((((i:ℕ):ℤ) - ((i:ℕ):ℤ) : ℤ) : ℝ) = 0 := by
      push_cast
      ring
    have hS2 : ∑ k ∈ Finset.range N, Real.cos ((k:ℝ) *
        (Real.pi * ((((i:ℕ):ℤ) - ((i:ℕ):ℤ) : ℤ) : ℝ) / N)) = N := by
      have hone : ∀ k ∈ Finset.range N, Real.cos ((k:ℝ) *
          (Real.pi * ((((i:ℕ):ℤ) - ((i:ℕ):ℤ) : ℤ) : ℝ) / N)) = 1 := by
        intro k _
        rw [hz2]
        simp
      rw [Finset.sum_congr rfl hone]
      simp
    have hS1 : ∑ k ∈ Finset.range N, Real.cos ((k:ℝ) *
        (Real.pi * ((((i:ℕ):ℤ) + ((i:ℕ):ℤ) + 1 : ℤ) : ℝ) / N)) = 1 :=
      cosSum_odd N hN _ ⟨((i:ℕ):ℤ), by ring⟩
    rw [hS2, hS1, if_pos rfl]
    ring
  · have hirne : ((r:ℕ):ℤ) ≠ ((i:ℕ):ℤ) := by
      intro hc
      exact heq (Fin.ext (by exact_mod_cast hc.symm))
    have hrlt : (r:ℕ) < N := r.isLt
    have hilt : (i:ℕ) < N := i.isLt
    rcases Int.even_or_odd (((r:ℕ):ℤ) - ((i:ℕ):ℤ)) with he2 | ho2
    · obtain ⟨p, hp⟩ := he2
      have hm2form : (((r:ℕ):ℤ) - ((i:ℕ):ℤ)) = 2 * p := by omega
      have hpne : p ≠ 0 := by
        intro h0
        rw [h0] at hm2form
        exact hirne (by omega)
      have hpbound : |p| < (N:ℤ) := by
        rw [abs_lt]
        omega
      have hnd : ¬ (N:ℤ) ∣ p := by
        intro hdvd
        have := Int.le_of_dvd (abs_pos.mpr hpne) ((dvd_abs _ _).mpr hdvd)
        omega
      have hS2 : ∑ k ∈ Finset.range N, Real.cos ((k:ℝ) *
          (Real.pi * ((((r:ℕ):ℤ) - ((i:ℕ):ℤ) : ℤ) : ℝ) / N)) = 0 := by
        have hcast : ((((r:ℕ):ℤ) - ((i:ℕ):ℤ) : ℤ) : ℝ) = 2 * (p : ℝ) := by
          rw [hm2form]
          push_cast
          ring
        simp only [hcast]
        exact cosSum_even_not_dvd N hN p hnd
      have hS1 : ∑ k ∈ Finset.range N, Real.cos ((k:ℝ) *
          (Real.pi * ((((r:ℕ):ℤ) + ((i:ℕ):ℤ) + 1 : ℤ) : ℝ) / N)) = 1 :=
        cosSum_odd N hN _ ⟨p + ((i:ℕ):ℤ), by omega⟩
      rw [hS2, hS1, if_neg heq]
      ring
    · obtain ⟨t, ht⟩ := ho2
      have hm1even : (((r:ℕ):ℤ) + ((i:ℕ):ℤ) + 1) = 2 * (t + ((i:ℕ):ℤ) + 1) := by
        omega
      have hqne : t + ((i:ℕ):ℤ) + 1 ≠ 0 := by omega
      have hqbound : |t + ((i:ℕ):ℤ) + 1| < (N:ℤ) := by
        rw [abs_lt]
        omega
      have hnd : ¬ (N:ℤ) ∣ (t + ((i:ℕ):ℤ) + 1) := by
        intro hdvd
        have := Int.le_of_dvd (abs_pos.mpr hqne) ((dvd_abs _ _).mpr hdvd)
        omega
      have hS2 : ∑ k ∈ Finset.range N, Real.cos ((k:ℝ) *
          (Real.pi * ((((r:ℕ):ℤ) - ((i:ℕ):ℤ) : ℤ) : ℝ) / N)) = 1 :=
        cosSum_odd N hN _ ⟨t, by omega⟩
      have hS1 : ∑ k ∈ Finset.range N, Real.cos ((k:ℝ) *
          (Real.pi * ((((r:ℕ):ℤ) + ((i:ℕ):ℤ) + 1 : ℤ) : ℝ) / N)) = 0 := by
        have hcast : ((((r:ℕ):ℤ) + ((i:ℕ):ℤ) + 1 : ℤ) : ℝ) =
            2 * ((t + ((i:ℕ):ℤ) + 1 : ℤ) : ℝ) := by
          rw [hm1even]
          push_cast
          ring
        simp only [hcast]
        exact cosSum_even_not_dvd N hN _ hnd
      rw [hS2, hS1, if_neg heq]
      ring

set_option maxHeartbeats 1000000 in
lemma dct1d_inv (N : ℕ) (hN : 0 < N) (x : Fin N → ℝ) (i : Fin N) :
    ∑ k : Fin N, ((if (k:ℕ) = 0 then (1:ℝ)/2 else 1) * dct1d N x k *
      Real.cos (Real.pi * k * (2 * (i:ℕ) + 1) / (2 * N))) = N * x i := by
  have step1 : ∀ k : Fin N,
      (if (k:ℕ) = 0 then (1:ℝ)/2 else 1) * dct1d N x k *
        Real.cos (Real.pi * k * (2 * (i:ℕ) + 1) / (2 * N)) =
      ∑ m : Fin N, 2 * x m * ((if (k:ℕ) = 0 then (1:ℝ)/2 else 1) *
        (Real.cos (Real.pi * k * (2 * (m:ℕ) + 1) / (2 * N)) *
         Real.cos (Real.pi * k * (2 * (i:ℕ) + 1) / (2 * N)))) := by
    intro k
    unfold dct1d
    simp only [Finset.mul_sum, Finset.sum_mul]
    exact Finset.sum_congr rfl fun m _ => by ring
  rw [Finset.sum_congr rfl fun k _ => step1 k, Finset.sum_comm]
  have step2 : ∀ m : Fin N,
      ∑ k : Fin N, 2 * x m * ((if (k:ℕ) = 0 then (1:ℝ)/2 else 1) *
        (Real.cos (Real.pi * k * (2 * (m:ℕ) + 1) / (2 * N)) *
         Real.cos (Real.pi * k * (2 * (i:ℕ) + 1) / (2 * N)))) =
      if i = m then (N:ℝ) * x m else 0 := by
    intro m
    rw [← Finset.mul_sum]
    rw [show ∑ k : Fin N, ((if (k:ℕ) = 0 then (1:ℝ)/2 else 1) *
        (Real.cos (Real.pi * k * (2 * (m:ℕ) + 1) / (2 * N)) *
         Real.cos (Real.pi * k * (2 * (i:ℕ) + 1) / (2 * N)))) =
      ∑ k ∈ Finset.range N, ((if k = 0 then (1:ℝ)/2 else 1) *
        (Real.cos (Real.pi * k * (2 * (m:ℕ) + 1) / (2 * N)) *
         Real.cos (Real.pi * k * (2 * (i:ℕ) + 1) / (2 * N)))) from
      Fin.sum_univ_eq_sum_range (fun k => (if k = 0 then (1:ℝ)/2 else 1) *
        (Real.cos (Real.pi * k * (2 * (m:ℕ) + 1) / (2 * N)) *
         Real.cos (Real.pi * k * (2 * (i:ℕ) + 1) / (2 * N)))) N]
    rw [dct_kernel N hN i m]
    split_ifs
    · ring
    · ring
  rw [Finset.sum_congr rfl fun m _ => step2 m]
  rw [Finset.sum_ite_eq Finset.univ i (fun m => (N:ℝ) * x m)]
  simp

lemma coefAng_node (N : ℕ) (k : Fin N) (i : ℕ) :
    coefAng N k * (((i : ℕ) : ℝ) + 0.5) =
      Real.pi * k * (2 * i + 1) / (2 * N) := by
  unfold coefAng
  rw [show (0.5 : ℝ) = 1/2 by norm_num]
  ring

lemma dct2dCoeffs_eq (nR nZ : ℕ) (psiRZ : Fin nZ → Fin nR → ℝ)
    (a : Fin nZ) (k : Fin nR) :
    dct2dCoeffs nR nZ psiRZ a k =
      (if (a : ℕ) = 0 then (1:ℝ)/2 else 1) *
        ((if (k : ℕ) = 0 then (1:ℝ)/2 else 1) *
          (dct2dRaw nR nZ psiRZ a k / (nR * nZ))) := by
  simp only [dct2dCoeffs]
  split_ifs <;> ring

lemma DCT_2D_call_eval (nR nZ : ℕ) (d : DCT_2D nR nZ) (R Z : ℝ)
    (iR iZ : ℝ)
    (hiR : (R - d.Rmin) / d.Rsize * ((nR : ℝ) - 1) = iR)
    (hiZ : (Z - d.Zmin) / d.Zsize * ((nZ : ℝ) - 1) = iZ) :
    DCT_2D.call d R Z = ∑ a : Fin nZ, ∑ k : Fin nR,
      d.psiDCT a k * Real.cos (coefAng nR k * (iR + 0.5)) *
        Real.cos (coefAng nZ a * (iZ + 0.5)) := by
  simp only [DCT_2D.call, hiR, hiZ]

set_option maxHeartbeats 1000000 in
theorem dct_call_roundtrip (nR nZ : ℕ) (hR : 1 < nR) (hZ : 1 < nZ)
    (Rmin Zmin dR dZ : ℝ) (hdR : dR ≠ 0) (hdZ : dZ ≠ 0)
    (psiRZ : Fin nZ → Fin nR → ℝ) (i : Fin nR) (j : Fin nZ) :
    DCT_2D.call (DCT_2D.build nR nZ (by omega) (by omega)
        (fun a => Rmin + (a : ℕ) * dR) (fun b => Zmin + (b : ℕ) * dZ) psiRZ)
      (Rmin + (i : ℕ) * dR) (Zmin + (j : ℕ) * dZ) = psiRZ j i := by
  have hR0 : 0 < nR := by omega
  have hZ0 : 0 < nZ := by omega
  have hnRne : (nR : ℝ) ≠ 0 := Nat.cast_ne_zero.mpr hR0.ne'
  have hnZne : (nZ : ℝ) ≠ 0 := Nat.cast_ne_zero.mpr hZ0.ne'
  have hR1 : (1:ℝ) < nR := by exact_mod_cast hR
  have hZ1 : (1:ℝ) < nZ := by exact_mod_cast hZ
  have hnR1 : (nR : ℝ) - 1 ≠ 0 := sub_ne_zero.mpr (ne_of_gt hR1)
  have hnZ1 : (nZ : ℝ) - 1 ≠ 0 := sub_ne_zero.mpr (ne_of_gt hZ1)
  have hcR : ((nR - 1 : ℕ) : ℝ) = (nR : ℝ) - 1 := by
    have h1 : (1 : ℕ) ≤ nR := by omega
    push_cast [Nat.cast_sub h1]
    ring
  have hcZ : ((nZ - 1 : ℕ) : ℝ) = (nZ : ℝ) - 1 := by
    have h1 : (1 : ℕ) ≤ nZ := by omega
    push_cast [Nat.cast_sub h1]
    ring
  rw [DCT_2D_call_eval nR nZ _ _ _ ((i : ℕ) : ℝ) ((j : ℕ) : ℝ)
    (by simp only [DCT_2D.build]
        rw [hcR]
        push_cast
        field_simp
        ring)
    (by simp only [DCT_2D.build]
        rw [hcZ]
        push_cast
        field_simp
        ring)]
  have hnode : ∀ (N : ℕ) (k : Fin N) (t : ℕ),
      coefAng N k * (((t : ℕ) : ℝ) + 0.5) =
        Real.pi * k * (2 * t + 1) / (2 * N) := coefAng_node
  simp only [DCT_2D.build, dct2dCoeffs_eq, hnode]
  have inner : ∀ a : Fin nZ,
      ∑ k : Fin nR,
        ((if (a : ℕ) = 0 then (1:ℝ)/2 else 1) *
          ((if (k : ℕ) = 0 then (1:ℝ)/2 else 1) *
            (dct2dRaw nR nZ psiRZ a k / (nR * nZ))) *
          Real.cos (Real.pi * k * (2 * (i:ℕ) + 1) / (2 * nR)) *
          Real.cos (Real.pi * a * (2 * (j:ℕ) + 1) / (2 * nZ))) =
      ((if (a : ℕ) = 0 then (1:ℝ)/2 else 1) *
        Real.cos (Real.pi * a * (2 * (j:ℕ) + 1) / (2 * nZ)) / (nR * nZ)) *
        ∑ k : Fin nR,
          ((if (k : ℕ) = 0 then (1:ℝ)/2 else 1) *
            dct1d nR (fun r => dct1d nZ (fun z => psiRZ z r) a) k *
            Real.cos (Real.pi * k * (2 * (i:ℕ) + 1) / (2 * nR))) := by
    intro a
    rw [Finset.mul_sum]
    refine Finset.sum_congr rfl fun k _ => ?_
    simp only [dct2dRaw]
    ring
  simp only [inner]
  have hinv1 : ∀ a : Fin nZ,
      ∑ k : Fin nR,
        ((if (k : ℕ) = 0 then (1:ℝ)/2 else 1) *
          dct1d nR (fun r => dct1d nZ (fun z => psiRZ z r) a) k *
          Real.cos (Real.pi * k * (2 * (i:ℕ) + 1) / (2 * nR))) =
      (nR : ℝ) * dct1d nZ (fun z => psiRZ z i) a := by
    intro a
    exact dct1d_inv nR hR0 (fun r => dct1d nZ (fun z => psiRZ z r) a) i
  simp only [hinv1]
  have outer : ∑ a : Fin nZ,
      ((if (a : ℕ) = 0 then (1:ℝ)/2 else 1) *
        Real.cos (Real.pi * a * (2 * (j:ℕ) + 1) / (2 * nZ)) / (nR * nZ)) *
        ((nR : ℝ) * dct1d nZ (fun z => psiRZ z i) a) =
      ((nR : ℝ) / (nR * nZ)) * ∑ a : Fin nZ,
        ((if (a : ℕ) = 0 then (1:ℝ)/2 else 1) *
          dct1d nZ (fun z => psiRZ z i) a *
          Real.cos (Real.pi * a * (2 * (j:ℕ) + 1) / (2 * nZ))) := by
    rw [Finset.mul_sum]
    refine Finset.sum_congr rfl fun a _ => ?_
    ring
  rw [outer, dct1d_inv nZ hZ0 (fun z => psiRZ z i) j]
  field_simp
  ring

/-- **C1.**  For every uniform grid and sample array accepted by
construction, the spectral field's evaluation at any grid-aligned node
`(Rarray[i], Zarray[j])` equals the original sample `psiRZ[j][i]` exactly
(in the real-number idealisation of floats): the DCT normalisation —
division by `nR*nZ` with the zero-frequency row and column halved —
together with the `+0.5` offset in the cosine arguments makes the double
cosine sum the exact inverse of the type-II transform at the sample
points. -/
theorem dct_roundtrip_at_nodes (nR nZ : ℕ) (hR : 1 < nR) (hZ : 1 < nZ)
    (Rmin Zmin dR dZ : ℝ) (hdR : dR ≠ 0) (hdZ : dZ ≠ 0)
    (psiRZ : Fin nZ → Fin nR → ℝ) (i : Fin nR) (j : Fin nZ) :
    DCT_2D.call (DCT_2D.build nR nZ (by omega) (by omega)
        (fun a => Rmin + (a : ℕ) * dR) (fun b => Zmin + (b : ℕ) * dZ) psiRZ)
      (Rmin + (i : ℕ) * dR) (Zmin + (j : ℕ) * dZ) = psiRZ j i :=
  dct_call_roundtrip nR nZ hR hZ Rmin Zmin dR dZ hdR hdZ psiRZ i j

/-- Witness for C1: a `2 × 2` unit-spacing grid with constant samples. -/
theorem dct_roundtrip_at_nodes_witness :
    DCT_2D.call (DCT_2D.build 2 2 (by norm_num) (by norm_num)
        (fun a => 0 + (a : ℕ) * 1) (fun b => 0 + (b : ℕ) * 1)
        (fun _ _ => (5 : ℝ)))
      (0 + ((1 : Fin 2) : ℕ) * 1) (0 + ((0 : Fin 2) : ℕ) * 1) = 5 :=
  dct_roundtrip_at_nodes 2 2 (by norm_num) (by norm_num) 0 0 1 1
    (by norm_num) (by norm_num) (fun _ _ => 5) 1 0

end Hypnotoad
